import Mathlib

/-!
# Prompts model (`src/js/promptsModel.js`)

A shallow embedding of `window.PromptsModel`: the in-memory prompt collection, its
normalisation at start-up (`init`), the CRUD operations (`addPrompt`, `editPrompt`,
`deletePrompt`, `toggleFavorite`, `incrementUsage`) and the query function
`getFilteredPrompts`.

Conventions of the embedding.

* JavaScript values are the JSON-like values of `JsVal`. Numbers are the integer-valued
  doubles (timestamps and counters), as `Int`: comparison and the sign of a difference are
  exact on them, and `+ 1` rounds as a double does (`addOne`). Strings are sequences of
  Unicode scalar values.
* An object is its list of own properties in insertion order (`Obj`). A later binding of a
  name shadows an earlier one, as in an object literal; writing a property keeps its position.
* `===` on two arrays or two objects compares references in JavaScript. The embedding has no
  references: two array or object operands are taken to be separate allocations (as after
  `JSON.parse`), so `===` between them is `false`.
* The collection `PromptsModel.prompts` holds objects: `init` builds object literals and
  `addPrompt` only pushes a value whose `text` property is a string.
* The collaborators (`Storage.savePrompts`, `EventBus.emit`, `showError`) are logs in `World`;
  `Date.now()` and `generateUUID()` are read from `Host`, and from a parameter `now` in
  `editPrompt`. The case mapping of `toLowerCase` is a parameter of `getFilteredPrompts`,
  and the digits `Number.prototype.toString` writes are the parameter `numberToString` of
  `incrementUsage`.
* A function in which JavaScript can throw returns `Except JsError`.

The definitions of the operations follow the source. The section "Notions taken from the
specification" holds the predicates the claims are stated with, written from the
specification's wording; where a claim is amended, the amended predicate stands next to the
stated one.
-/

namespace PromptsModel

/-! ## Values -/

/-- JavaScript values, JSON-like. -/
inductive JsVal where
  | undefined
  | null
  | bool (b : Bool)
  | num (n : Int)
  | str (s : String)
  | arr (items : List JsVal)
  | obj (props : List (String × JsVal))

/-- Own properties of an object, in insertion order. -/
abbrev Obj := List (String × JsVal)

namespace JsVal

/-- ToBoolean. -/
def truthy : JsVal → Bool
  | undefined => false
  | null => false
  | bool b => b
  | num n => n != 0
  | str s => s != ""
  | arr _ => true
  | obj _ => true

/-- The `typeof` operator. -/
def typeof : JsVal → String
  | undefined => "undefined"
  | null => "object"
  | bool _ => "boolean"
  | num _ => "number"
  | str _ => "string"
  | arr _ => "object"
  | obj _ => "object"

/-- `Array.isArray`. -/
def isArray : JsVal → Bool
  | arr _ => true
  | _ => false

/-- Strict equality `a === b`. Arrays and objects are compared by reference; two operands
of the embedding are separate allocations. -/
def strictEq : JsVal → JsVal → Bool
  | undefined, undefined => true
  | null, null => true
  | bool a, bool b => a == b
  | num a, num b => a == b
  | str a, str b => a == b
  | _, _ => false

end JsVal

/-! ## Objects -/

/-- The binding of `k` among the own properties, the last one written winning. -/
def Obj.lookup (k : String) : Obj → Option JsVal
  | [] => none
  | (k', v) :: rest =>
    match Obj.lookup k rest with
    | some w => some w
    | none => if k' = k then some v else none

/-- Property read `o.k` on an object: `undefined` when there is no such property. -/
def Obj.get (o : Obj) (k : String) : JsVal :=
  (Obj.lookup k o).getD JsVal.undefined

/-- Property write `o.k = v`: an existing property keeps its place, a new one goes last. -/
def Obj.set (o : Obj) (k : String) (v : JsVal) : Obj :=
  if (Obj.lookup k o).isSome then o.map (fun kv => if kv.1 = k then (k, v) else kv)
  else o ++ [(k, v)]

/-- Object spread `{...target, ...source}` for an object source: each own property of the
source is written in turn. -/
def Obj.assign (target source : Obj) : Obj :=
  source.foldl (fun acc kv => Obj.set acc kv.1 kv.2) target

/-- Property read `v.k` on any value other than `null` and `undefined` (on which
it throws): primitives and arrays have none of the property names the model reads. -/
def JsVal.member (v : JsVal) (k : String) : JsVal :=
  match v with
  | JsVal.obj props => Obj.get props k
  | _ => JsVal.undefined

/-- The own named properties of a value: those of an object; `null`, `undefined`, booleans,
numbers and the empty string have none, so `{...v}` copies nothing from them. -/
def JsVal.ownProps : JsVal → Obj
  | JsVal.obj props => props
  | _ => []

/-! ## Strings -/

/-- WhiteSpace and LineTerminator code points, the ones `String.prototype.trim` strips. -/
def isJsWhiteSpace (c : Char) : Bool :=
  let n := c.toNat
  n == 0x09 || n == 0x0A || n == 0x0B || n == 0x0C || n == 0x0D || n == 0x20 ||
  n == 0xA0 || n == 0x1680 || (0x2000 ≤ n && n ≤ 0x200A) || n == 0x2028 || n == 0x2029 ||
  n == 0x202F || n == 0x205F || n == 0x3000 || n == 0xFEFF

/-- `String.prototype.trim`. -/
def jsTrim (s : String) : String :=
  ⟨((s.data.dropWhile isJsWhiteSpace).reverse.dropWhile isJsWhiteSpace).reverse⟩

/-- `String.prototype.includes` for a string argument. -/
def jsIncludes (hay needle : String) : Bool :=
  decide (needle.data <:+: hay.data)

/-! ## The world the model acts on -/

/-- Exceptions. `typeError` is a JavaScript `TypeError`; `unsupported` marks an evaluation
that leaves the fragment of JavaScript the embedding covers (the subtraction of a sort
comparator applied to a non-empty string, an array or an object, which it would coerce to a
number). -/
inductive JsError where
  | typeError
  | unsupported
  deriving DecidableEq, Repr

/-- Keys of `messages.errors` passed to `window.showError`. -/
inductive ErrorKey where
  | invalidPrompts
  | mustSelectFolder
  | duplicatePrompt
  | mustSelectFolderEdit
  deriving DecidableEq, Repr

/-- Events passed to `window.EventBus.emit`, with their payloads. -/
inductive Event where
  | promptCreated (prompt : Obj)
  | promptUpdated (id : JsVal) (prompt : Obj) (changes : JsVal)
  | promptRemoved (id : JsVal) (prompt : Obj)
  | promptFavorited (id : JsVal) (prompt : Obj) (isFavorite : JsVal)
  | promptCopied (id : JsVal) (prompt : Obj) (usageCount : JsVal)

/-- The collection together with what the collaborators have received so far. -/
structure World where
  /-- The array `PromptsModel.prompts`. -/
  prompts : List Obj
  /-- Arguments of the `Storage.savePrompts` calls, oldest first. -/
  saved : List (List Obj)
  /-- Events given to `EventBus.emit`, oldest first. -/
  emitted : List Event
  /-- Messages given to `showError`, oldest first. -/
  errors : List ErrorKey

/-- The call `window.showError(messages.errors.k)`. -/
def World.showError (w : World) (k : ErrorKey) : World :=
  { w with errors := w.errors ++ [k] }

/-- The call `window.Storage.savePrompts(this.prompts)`. -/
def World.savePrompts (w : World) : World :=
  { w with saved := w.saved ++ [w.prompts] }

/-- The call `window.EventBus.emit(...)`. -/
def World.emit (w : World) (e : Event) : World :=
  { w with emitted := w.emitted ++ [e] }

/-! ## addPrompt -/

/-- The test `typeof t !== 'string' || !t.trim()` on a `text` property. -/
def blankOrNotString : JsVal → Bool
  | JsVal.str s => !(JsVal.str (jsTrim s)).truthy
  | _ => true

/-- The predicate `p => p.id === id` used by `some`, `findIndex` and `find`. -/
def hasId (id : JsVal) (p : Obj) : Bool :=
  JsVal.strictEq (Obj.get p "id") id

/-- Embedding of `addPrompt`. The first guard starts with `!prompt ||`, so the properties of
`prompt` are read only when it is truthy. A value that passes the first guard has a string
`text` property and is therefore an object; it is pushed as it is. -/
def addPrompt (w : World) (prompt : JsVal) : Bool × World :=
  if !prompt.truthy || blankOrNotString (prompt.member "text") then
    (false, w.showError ErrorKey.invalidPrompts)
  else if !(prompt.member "folderId").truthy then
    (false, w.showError ErrorKey.mustSelectFolder)
  else if w.prompts.any (hasId (prompt.member "id")) then
    (false, w.showError ErrorKey.duplicatePrompt)
  else
    let w1 : World := { w with prompts := w.prompts ++ [prompt.ownProps] }
    (true, (w1.savePrompts).emit (Event.promptCreated prompt.ownProps))

/-! ## editPrompt -/

/-- The test `typeof t === 'string' && !t.trim()` on the `text` property of a patch. -/
def blankString : JsVal → Bool
  | JsVal.str s => !(JsVal.str (jsTrim s)).truthy
  | _ => false

/-- The object literal `{ ...old, ...data, updatedAt: Date.now() }`. -/
def mergePatch (old : Obj) (data : JsVal) (now : Int) : Obj :=
  Obj.set (Obj.assign old data.ownProps) "updatedAt" (JsVal.num now)

/-- Embedding of `editPrompt`; `now` is the value `Date.now()` returns during the call.
Both guards on `data` start with `data &&`, so its properties are read only when it is
truthy. -/
def editPrompt (w : World) (now : Int) (id data : JsVal) : Bool × World :=
  match w.prompts.findIdx? (hasId id) with
  | none => (false, w.showError ErrorKey.invalidPrompts)
  | some idx =>
    if data.truthy && blankString (data.member "text") then
      (false, w.showError ErrorKey.invalidPrompts)
    else if data.truthy && !(data.member "folderId").truthy then
      (false, w.showError ErrorKey.mustSelectFolderEdit)
    else
      let merged := mergePatch (w.prompts.getD idx []) data now
      let w1 : World := { w with prompts := w.prompts.set idx merged }
      (true, (w1.savePrompts).emit (Event.promptUpdated id merged data))

/-! ## deletePrompt -/

/-- Embedding of `deletePrompt`. A found record is an object, hence truthy in
`if (deletedPrompt)`. -/
def deletePrompt (w : World) (id : JsVal) : World :=
  let deletedPrompt := w.prompts.find? (hasId id)
  let w1 : World := { w with prompts := w.prompts.filter (fun p => !hasId id p) }
  let w2 := w1.savePrompts
  match deletedPrompt with
  | some d => w2.emit (Event.promptRemoved id d)
  | none => w2

/-! ## toggleFavorite and incrementUsage -/

/-- Embedding of `toggleFavorite`. `find` returns the first record with the id; the assignment
to its `favorite` property changes the collection at that position. -/
def toggleFavorite (w : World) (id : JsVal) : World :=
  match w.prompts.findIdx? (hasId id) with
  | none => w
  | some idx =>
    let prompt := w.prompts.getD idx []
    let flipped := JsVal.bool (!(Obj.get prompt "favorite").truthy)
    let prompt1 := Obj.set prompt "favorite" flipped
    let w1 : World := { w with prompts := w.prompts.set idx prompt1 }
    (w1.savePrompts).emit (Event.promptFavorited id prompt1 flipped)

/-- The string `OrdinaryToPrimitive` gives for a plain object. `Object.prototype.valueOf`
answers the object itself, so the conversion goes on to `toString`: the inherited one answers
`"[object Object]"`; an own property named `toString` shadows it, holds a JSON-like value,
which is not callable, and the conversion throws a `TypeError`. -/
def objectToString (props : Obj) : Except JsError String :=
  match Obj.lookup "toString" props with
  | some _ => Except.error JsError.typeError
  | none => Except.ok "[object Object]"

mutual
/-- The string of an array, `Array.prototype.join` with the separator `","`. The digits of
a number are those of the parameter `numberToString`. -/
def joinElements (numberToString : Int → String) : List JsVal → Except JsError String
  | [] => Except.ok ""
  | x :: rest =>
    match elementToString numberToString x with
    | Except.error e => Except.error e
    | Except.ok s =>
      match rest with
      | [] => Except.ok s
      | _ :: _ =>
        match joinElements numberToString rest with
        | Except.error e => Except.error e
        | Except.ok t => Except.ok (s ++ "," ++ t)
/-- The string an element contributes to `join`: empty for `undefined` and `null`, else its
string conversion. -/
def elementToString (numberToString : Int → String) : JsVal → Except JsError String
  | JsVal.undefined => Except.ok ""
  | JsVal.null => Except.ok ""
  | JsVal.bool b => Except.ok (if b then "true" else "false")
  | JsVal.num n => Except.ok (numberToString n)
  | JsVal.str s => Except.ok s
  | JsVal.arr items => joinElements numberToString items
  | JsVal.obj props => objectToString props
end

/-- The double `n + 1` for an integer-valued double `n`. The sum is exact from `-2^53` up to
`2^53`. Further out, up to `2^54` in magnitude, doubles are 2 apart: the sum lies halfway
between `n` and `n + 2` and rounds to the one with the even significand. Beyond that it
rounds back to `n`. -/
def addOne (n : Int) : Int :=
  if -(2 ^ 53) ≤ n ∧ n < 2 ^ 53 then n + 1
  else if -(2 ^ 54) < n ∧ n < 2 ^ 54 then (if n % 4 = 0 then n else n + 2)
  else n

/-- The expression `(v || 0) + 1`. A falsy `v` gives `0 + 1`; a number is added to, `true`
counting as 1; a non-empty string gets `"1"` appended; an array or an object is converted to
a string first, which gets `"1"` appended, and the conversion can throw. -/
def orZeroPlusOne (numberToString : Int → String) : JsVal → Except JsError JsVal
  | JsVal.num n => Except.ok (JsVal.num (addOne n))
  | JsVal.undefined => Except.ok (JsVal.num 1)
  | JsVal.null => Except.ok (JsVal.num 1)
  | JsVal.bool b => Except.ok (JsVal.num (if b then 2 else 1))
  | JsVal.str s => if s = "" then Except.ok (JsVal.num 1) else Except.ok (JsVal.str (s ++ "1"))
  | JsVal.arr items =>
    match joinElements numberToString items with
    | Except.error e => Except.error e
    | Except.ok s => Except.ok (JsVal.str (s ++ "1"))
  | JsVal.obj props =>
    match objectToString props with
    | Except.error e => Except.error e
    | Except.ok s => Except.ok (JsVal.str (s ++ "1"))

/-- Embedding of `incrementUsage`. The addition is evaluated before the assignment, so a call
in which it throws has written nothing. -/
def incrementUsage (numberToString : Int → String) (w : World) (id : JsVal) :
    Except JsError World :=
  match w.prompts.findIdx? (hasId id) with
  | none => Except.ok w
  | some idx =>
    let prompt := w.prompts.getD idx []
    match orZeroPlusOne numberToString (Obj.get prompt "usageCount") with
    | Except.error e => Except.error e
    | Except.ok count =>
      let prompt1 := Obj.set prompt "usageCount" count
      let w1 : World := { w with prompts := w.prompts.set idx prompt1 }
      Except.ok ((w1.savePrompts).emit (Event.promptCopied id prompt1 count))

/-- The store after a call `incrementUsage(id)`, whether the call returned or threw. -/
def afterIncrementUsage (numberToString : Int → String) (w : World) (id : JsVal) : World :=
  match incrementUsage numberToString w id with
  | Except.error _ => w
  | Except.ok w1 => w1

/-- The store after `n` consecutive calls `incrementUsage(id)`, when all of them return. -/
def incrementUsageTimes (numberToString : Int → String) : Nat → World → JsVal →
    Except JsError World
  | 0, w, _ => Except.ok w
  | n + 1, w, id =>
    match incrementUsage numberToString w id with
    | Except.error e => Except.error e
    | Except.ok w1 => incrementUsageTimes numberToString n w1 id

/-! ## init -/

/-- The ambient functions `init` consults: the result of the `k`-th call of each. -/
structure Host where
  /-- Results of `window.generateUUID()`. -/
  generateUUID : Nat → String
  /-- Results of `Date.now()`. -/
  now : Nat → Int

/-- How many calls of each ambient function have been made. -/
structure Calls where
  uuid : Nat
  now : Nat
  deriving DecidableEq, Repr

/-- The `id` initialiser: `typeof p.id === 'string' ? p.id : window.generateUUID()`. -/
def normId (h : Host) (c : Calls) (v : JsVal) : JsVal × Calls :=
  if v.typeof = "string" then (v, c)
  else (JsVal.str (h.generateUUID c.uuid), { c with uuid := c.uuid + 1 })

/-- The timestamp initialisers: `typeof t === 'number' ? t : Date.now()`. -/
def normTime (h : Host) (c : Calls) (v : JsVal) : JsVal × Calls :=
  if v.typeof = "number" then (v, c)
  else (JsVal.num (h.now c.now), { c with now := c.now + 1 })

/-- The arrow function of `init`, applied to one raw value. Reading a property of `null`
or `undefined` throws. The initialisers run in source order. -/
def normalize (h : Host) (c : Calls) (p : JsVal) : Except JsError (Obj × Calls) :=
  match p with
  | JsVal.undefined => Except.error JsError.typeError
  | JsVal.null => Except.error JsError.typeError
  | _ =>
    let id := normId h c (p.member "id")
    let text := if (p.member "text").typeof = "string" then p.member "text" else JsVal.str ""
    let tags := if (p.member "tags").isArray then p.member "tags" else JsVal.arr []
    let favorite := JsVal.bool (p.member "favorite").truthy
    let folderId :=
      if (p.member "folderId").typeof = "string" || JsVal.strictEq (p.member "folderId") JsVal.null
      then p.member "folderId" else JsVal.null
    let createdAt := normTime h id.2 (p.member "createdAt")
    let updatedAt := normTime h createdAt.2 (p.member "updatedAt")
    let usageCount :=
      if (p.member "usageCount").typeof = "number" then p.member "usageCount" else JsVal.num 0
    Except.ok
      ([("id", id.1), ("text", text), ("tags", tags), ("favorite", favorite),
        ("folderId", folderId), ("createdAt", createdAt.1), ("updatedAt", updatedAt.1),
        ("usageCount", usageCount)], updatedAt.2)

/-- The `map` of `init` over the loaded array, left to right. -/
def normalizeAll (h : Host) : Calls → List JsVal → Except JsError (List Obj × Calls)
  | c, [] => Except.ok ([], c)
  | c, p :: ps =>
    match normalize h c p with
    | Except.error e => Except.error e
    | Except.ok (r, c1) =>
      match normalizeAll h c1 ps with
      | Except.error e => Except.error e
      | Except.ok (rs, c2) => Except.ok (r :: rs, c2)

/-- Embedding of `init`; `raw` is what `window.Storage.loadPrompts()` returns. The
assignment to `this.prompts` happens only when the `map` completes. -/
def init (h : Host) (c : Calls) (w : World) (raw : List JsVal) : Except JsError (World × Calls) :=
  match normalizeAll h c raw with
  | Except.error e => Except.error e
  | Except.ok (rs, c1) => Except.ok ({ w with prompts := rs }, c1)

/-! ## getFilteredPrompts -/

/-- `Array.prototype.filter` with a callback that may throw; elements are visited in order. -/
def filterE (f : Obj → Except JsError Bool) : List Obj → Except JsError (List Obj)
  | [] => Except.ok []
  | p :: ps =>
    match f p with
    | Except.error e => Except.error e
    | Except.ok b =>
      match filterE f ps with
      | Except.error e => Except.error e
      | Except.ok rest => Except.ok (if b then p :: rest else rest)

/-- The method call `v.toLowerCase()`: only strings have the method. The Unicode case
mapping itself, `toLowerCase`, is a parameter. -/
def lowerOf (toLowerCase : String → String) : JsVal → Except JsError String
  | JsVal.str s => Except.ok (toLowerCase s)
  | _ => Except.error JsError.typeError

/-- The callback `p => p.text && p.text.toLowerCase().includes(txt)`. -/
def textMatches (toLowerCase : String → String) (txt : String) (p : Obj) :
    Except JsError Bool :=
  if !(Obj.get p "text").truthy then Except.ok false
  else
    match lowerOf toLowerCase (Obj.get p "text") with
    | Except.error e => Except.error e
    | Except.ok s => Except.ok (jsIncludes s txt)

/-- The callback `p => Array.isArray(p.tags) && p.tags.includes(tag)`; `includes` compares
with SameValueZero, which is `===` on the values of the embedding. -/
def tagMatches (tag : JsVal) (p : Obj) : Bool :=
  match Obj.get p "tags" with
  | JsVal.arr items => items.any (fun t => JsVal.strictEq t tag)
  | _ => false

/-- The folder step: `if (filters.folder) filtered = filtered.filter(...)`. -/
def byFolder (filters : JsVal) (l : List Obj) : List Obj :=
  if (filters.member "folder").truthy then
    l.filter (fun p => JsVal.strictEq (Obj.get p "folderId") (filters.member "folder"))
  else l

/-- The text step. -/
def byText (toLowerCase : String → String) (filters : JsVal) (l : List Obj) :
    Except JsError (List Obj) :=
  if (filters.member "text").truthy then
    match lowerOf toLowerCase (filters.member "text") with
    | Except.error e => Except.error e
    | Except.ok txt => filterE (textMatches toLowerCase txt) l
  else Except.ok l

/-- The favourites step. -/
def byFavorite (filters : JsVal) (l : List Obj) : List Obj :=
  if (filters.member "favorite").truthy then l.filter (fun p => (Obj.get p "favorite").truthy)
  else l

/-- The tag step. -/
def byTag (filters : JsVal) (l : List Obj) : List Obj :=
  if (filters.member "tag").truthy then l.filter (tagMatches (filters.member "tag")) else l

/-- The operand `v || 0` of the comparators, as the number the subtraction works on: `v`
itself for a number, `0` for a falsy value, `1` for `true`. A non-empty string, an array
or an object would be coerced by ToNumber, which the embedding does not cover. -/
def keyOrZero : JsVal → Option Int
  | JsVal.num n => some n
  | JsVal.undefined => some 0
  | JsVal.null => some 0
  | JsVal.bool b => some (if b then 1 else 0)
  | JsVal.str s => if s = "" then some 0 else none
  | JsVal.arr _ => none
  | JsVal.obj _ => none

/-- The comparator `(a, b) => (b.field || 0) - (a.field || 0)`. -/
def compareDesc (field : String) (a b : Obj) : Int :=
  (keyOrZero (Obj.get b field)).getD 0 - (keyOrZero (Obj.get a field)).getD 0

/-- The call `filtered.sort(comparator)`. `Array.prototype.sort` is stable and puts `a` before
`b` when the comparator is negative on `(a, b)`; with the consistent comparators used here
any such sort returns the list that stable insertion returns. The comparator is called only
when there are two elements to compare. -/
def sortDesc (field : String) (l : List Obj) : Except JsError (List Obj) :=
  if l.length < 2 || l.all (fun p => (keyOrZero (Obj.get p field)).isSome) then
    Except.ok (l.insertionSort (fun a b => compareDesc field a b ≤ 0))
  else Except.error JsError.unsupported

/-- The field the `order` criterion selects. -/
def orderField (filters : JsVal) : String :=
  if JsVal.strictEq (filters.member "order") (JsVal.str "usage") then "usageCount"
  else if JsVal.strictEq (filters.member "order") (JsVal.str "updatedAt") then "updatedAt"
  else "createdAt"

/-- The body of `getFilteredPrompts` for a `filters` value whose properties can be read. -/
def filterAndSort (toLowerCase : String → String) (prompts : List Obj) (filters : JsVal) :
    Except JsError (List Obj) :=
  match byText toLowerCase filters (byFolder filters prompts) with
  | Except.error e => Except.error e
  | Except.ok l => sortDesc (orderField filters) (byTag filters (byFavorite filters l))

/-- Embedding of `getFilteredPrompts`. The default parameter `filters = {}` replaces
`undefined`; reading a property of `null` throws. -/
def getFilteredPrompts (toLowerCase : String → String) (prompts : List Obj) (filters : JsVal) :
    Except JsError (List Obj) :=
  match filters with
  | JsVal.undefined => filterAndSort toLowerCase prompts (JsVal.obj [])
  | JsVal.null => Except.error JsError.typeError
  | _ => filterAndSort toLowerCase prompts filters

/-! ## Notions taken from the specification -/

/-- The absent values: `null`, the absent-marker of the data model, and `undefined`, a
missing argument or property. -/
def isAbsent : JsVal → Bool
  | JsVal.undefined => true
  | JsVal.null => true
  | _ => false

/-- A concrete (non-absent) value. -/
def isConcrete (v : JsVal) : Bool :=
  !isAbsent v

/-- The value is a string. -/
def isStringVal : JsVal → Bool
  | JsVal.str _ => true
  | _ => false

/-- The value is a number. -/
def isNumberVal : JsVal → Bool
  | JsVal.num _ => true
  | _ => false

/-- The value is a boolean. -/
def isBoolVal : JsVal → Bool
  | JsVal.bool _ => true
  | _ => false

/-- The value is the absent-marker `null`. -/
def isNullVal : JsVal → Bool
  | JsVal.null => true
  | _ => false

/-- A string that is non-empty after trimming whitespace. -/
def nonBlankString : JsVal → Bool
  | JsVal.str s => jsTrim s != ""
  | _ => false

/-- The condition of `InvalidRecord` on create: the record is absent, or its text is not a
string that is non-empty after trimming. -/
def invalidRecord (prompt : JsVal) : Bool :=
  isAbsent prompt || !nonBlankString (prompt.member "text")

/-- Some stored record already has the id. -/
def idExists (w : World) (id : JsVal) : Prop :=
  ∃ q ∈ w.prompts, JsVal.strictEq (Obj.get q "id") id = true

/-- The patch carries a text that is blank after trimming. -/
def patchTextBlank (data : JsVal) : Bool :=
  match data.member "text" with
  | JsVal.str s => jsTrim s == ""
  | _ => false

/-- A patch is supplied and it does not carry a concrete folderId. -/
def patchLacksConcreteFolder (data : JsVal) : Bool :=
  isConcrete data && !isConcrete (data.member "folderId")

/-- The value a patch specifies for the field `k`, if it specifies one. -/
def patchField (data : JsVal) (k : String) : Option JsVal :=
  match data with
  | JsVal.obj props => Obj.lookup k props
  | _ => none

/-- The record the field rules of normalisation give for the raw value `p`, with `freshId`
the generated id and `t1`, `t2` the clock readings used where a value is missing: each
field kept if well-typed, else replaced by its default. -/
def normalizedRecord (p : JsVal) (freshId : String) (t1 t2 : Int) : Obj :=
  [("id", if isStringVal (p.member "id") then p.member "id" else JsVal.str freshId),
   ("text", if isStringVal (p.member "text") then p.member "text" else JsVal.str ""),
   ("tags", if (p.member "tags").isArray then p.member "tags" else JsVal.arr []),
   ("favorite", JsVal.bool (p.member "favorite").truthy),
   ("folderId",
      if isStringVal (p.member "folderId") || isNullVal (p.member "folderId")
      then p.member "folderId" else JsVal.null),
   ("createdAt", if isNumberVal (p.member "createdAt") then p.member "createdAt"
      else JsVal.num t1),
   ("updatedAt", if isNumberVal (p.member "updatedAt") then p.member "updatedAt"
      else JsVal.num t2),
   ("usageCount", if isNumberVal (p.member "usageCount") then p.member "usageCount"
      else JsVal.num 0)]

/-- The record `r` is what the field rules of normalisation give for the raw value `p`, for
some generated id and clock readings of the host. -/
def NormalizedFrom (h : Host) (p : JsVal) (r : Obj) : Prop :=
  ∃ ku k1 k2 : Nat, r = normalizedRecord p (h.generateUUID ku) (h.now k1) (h.now k2)

/-- The Record schema of the data model: id a string, text a string, tags a sequence of
strings, favorite a boolean, folderId a string or the absent-marker, createdAt and updatedAt
integer timestamps, usageCount a non-negative integer. -/
def isRecord (r : Obj) : Bool :=
  isStringVal (Obj.get r "id") &&
  isStringVal (Obj.get r "text") &&
  (match Obj.get r "tags" with
    | JsVal.arr items => items.all isStringVal
    | _ => false) &&
  isBoolVal (Obj.get r "favorite") &&
  (isStringVal (Obj.get r "folderId") || isNullVal (Obj.get r "folderId")) &&
  isNumberVal (Obj.get r "createdAt") &&
  isNumberVal (Obj.get r "updatedAt") &&
  (match Obj.get r "usageCount" with
    | JsVal.num n => decide (0 ≤ n)
    | _ => false)

/-- A string criterion or no criterion at all. -/
def isStringOrMissing : JsVal → Bool
  | JsVal.str _ => true
  | JsVal.undefined => true
  | _ => false

/-- A boolean criterion or no criterion at all. -/
def isBoolOrMissing : JsVal → Bool
  | JsVal.bool _ => true
  | JsVal.undefined => true
  | _ => false

/-- The criteria argument is well-typed: it is omitted or an object, its `folder`, `text` and
`tag` are strings when present and its `favorite` is a boolean when present. -/
def wellTypedCriteria (filters : JsVal) : Bool :=
  (match filters with
    | JsVal.undefined => true
    | JsVal.obj _ => true
    | _ => false) &&
  isStringOrMissing (filters.member "folder") &&
  isStringOrMissing (filters.member "text") &&
  isBoolOrMissing (filters.member "favorite") &&
  isStringOrMissing (filters.member "tag")

/-- The folder criterion as stated: when the criteria carry a folder, the record's folderId
equals it. -/
def folderStated (filters : JsVal) (p : Obj) : Bool :=
  match filters.member "folder" with
  | JsVal.str f =>
    (match Obj.get p "folderId" with
      | JsVal.str g => g == f
      | _ => false)
  | _ => true

/-- The text criterion as stated: when the criteria carry a text, the record's text is
non-empty and contains it, both in lower case. -/
def textStated (toLowerCase : String → String) (filters : JsVal) (p : Obj) : Bool :=
  match filters.member "text" with
  | JsVal.str t =>
    (match Obj.get p "text" with
      | JsVal.str s => s != "" && jsIncludes (toLowerCase s) (toLowerCase t)
      | _ => false)
  | _ => true

/-- The favorite criterion as stated: the record's favorite is true when the favorite
criterion is true. -/
def favoriteStated (filters : JsVal) (p : Obj) : Bool :=
  match filters.member "favorite" with
  | JsVal.bool true =>
    (match Obj.get p "favorite" with
      | JsVal.bool b => b
      | _ => false)
  | _ => true

/-- The tag criterion as stated: when the criteria carry a tag, the record's tags contain an
element exactly equal to it. -/
def tagStated (filters : JsVal) (p : Obj) : Bool :=
  match filters.member "tag" with
  | JsVal.str t =>
    (match Obj.get p "tags" with
      | JsVal.arr items =>
        items.any (fun x =>
          match x with
          | JsVal.str s => s == t
          | _ => false)
      | _ => false)
  | _ => true

/-- The record satisfies all supplied criteria at once, as stated: every criterion the
criteria carry applies, the empty string included. -/
def satisfiesStatedCriteria (toLowerCase : String → String) (filters : JsVal) (p : Obj) :
    Bool :=
  folderStated filters p && textStated toLowerCase filters p && favoriteStated filters p &&
    tagStated filters p

/-! ### The criteria with the amendment of C10

A criterion applies when it is supplied and not empty: the empty string, like a missing
criterion, excludes nothing. -/

/-- The record's folderId equals the folder criterion; a criterion that is missing or empty
excludes nothing. -/
def folderOk (filters : JsVal) (p : Obj) : Bool :=
  match filters.member "folder" with
  | JsVal.str f =>
    f == "" ||
      (match Obj.get p "folderId" with
        | JsVal.str g => g == f
        | _ => false)
  | _ => true

/-- The record's text is non-empty and contains the text criterion, both in lower case; a
criterion that is missing or empty excludes nothing. -/
def textOk (toLowerCase : String → String) (filters : JsVal) (p : Obj) : Bool :=
  match filters.member "text" with
  | JsVal.str t =>
    t == "" ||
      (match Obj.get p "text" with
        | JsVal.str s => s != "" && jsIncludes (toLowerCase s) (toLowerCase t)
        | _ => false)
  | _ => true

/-- The record's favorite is true when the favorite criterion is true. -/
def favoriteOk (filters : JsVal) (p : Obj) : Bool :=
  match filters.member "favorite" with
  | JsVal.bool true =>
    (match Obj.get p "favorite" with
      | JsVal.bool b => b
      | _ => false)
  | _ => true

/-- The record's tags contain an element exactly equal to the tag criterion; a criterion that
is missing or empty excludes nothing. -/
def tagOk (filters : JsVal) (p : Obj) : Bool :=
  match filters.member "tag" with
  | JsVal.str t =>
    t == "" ||
      (match Obj.get p "tags" with
        | JsVal.arr items =>
          items.any (fun x =>
            match x with
            | JsVal.str s => s == t
            | _ => false)
        | _ => false)
  | _ => true

/-- The record satisfies all criteria that are supplied and not empty at once. -/
def satisfiesCriteria (toLowerCase : String → String) (filters : JsVal) (p : Obj) : Bool :=
  folderOk filters p && textOk toLowerCase filters p && favoriteOk filters p && tagOk filters p

/-- A string criterion is supplied and not empty. -/
def suppliedString : JsVal → Bool
  | JsVal.str s => s != ""
  | _ => false

/-- No criterion is supplied, or every supplied one is empty (the empty string, or `false`
for favorite). -/
def noCriteria (filters : JsVal) : Bool :=
  !suppliedString (filters.member "folder") && !suppliedString (filters.member "text") &&
  !(match filters.member "favorite" with
    | JsVal.bool b => b
    | _ => false) &&
  !suppliedString (filters.member "tag")

/-- A string or an absent value. -/
def isStringOrAbsent : JsVal → Bool
  | JsVal.str _ => true
  | JsVal.undefined => true
  | JsVal.null => true
  | _ => false

/-- A boolean or an absent value. -/
def isBoolOrAbsent : JsVal → Bool
  | JsVal.bool _ => true
  | JsVal.undefined => true
  | JsVal.null => true
  | _ => false

/-- A number or an absent value. -/
def isNumberOrAbsent : JsVal → Bool
  | JsVal.num _ => true
  | JsVal.undefined => true
  | JsVal.null => true
  | _ => false

/-- The fields a query reads hold what the data model puts there, or nothing: text is a
string, favorite a boolean, and createdAt, updatedAt and usageCount are numbers, each of
them possibly absent. Nothing is asked of id, folderId and tags. -/
def hasFilterFields (p : Obj) : Bool :=
  isStringOrAbsent (Obj.get p "text") &&
  isBoolOrAbsent (Obj.get p "favorite") &&
  isNumberOrAbsent (Obj.get p "createdAt") &&
  isNumberOrAbsent (Obj.get p "updatedAt") &&
  isNumberOrAbsent (Obj.get p "usageCount")

/-- A number or a missing value. -/
def isNumberOrMissing : JsVal → Bool
  | JsVal.num _ => true
  | JsVal.undefined => true
  | _ => false

/-- The fields a query reads are well-typed: text a string, favorite a boolean, and
createdAt, updatedAt and usageCount each a number or missing. -/
def hasQueryFields (p : Obj) : Bool :=
  isStringVal (Obj.get p "text") &&
  isBoolVal (Obj.get p "favorite") &&
  isNumberOrMissing (Obj.get p "createdAt") &&
  isNumberOrMissing (Obj.get p "updatedAt") &&
  isNumberOrMissing (Obj.get p "usageCount")

/-- The sort key of a record for a field: the number stored there, a missing key counting
as 0. -/
def sortKey (field : String) (p : Obj) : Int :=
  match Obj.get p field with
  | JsVal.num n => n
  | _ => 0

/-- The key selected by the order criterion: usageCount for `"usage"`, updatedAt for
`"updatedAt"`, createdAt when the criterion is absent or has any other value. -/
def selectedField (filters : JsVal) : String :=
  match filters.member "order" with
  | JsVal.str s =>
    if s = "usage" then "usageCount" else if s = "updatedAt" then "updatedAt" else "createdAt"
  | _ => "createdAt"

/-- No two records of the collection have the same id. -/
def UniqueIds (w : World) : Prop :=
  (w.prompts.map (fun p => Obj.get p "id")).Pairwise (fun a b => JsVal.strictEq a b = false)

/-- One call of create, update, delete, toggleFavorite or incrementUsage, with any
arguments. -/
inductive Step (numberToString : Int → String) : World → World → Prop where
  | create (w : World) (prompt : JsVal) : Step numberToString w (addPrompt w prompt).2
  | update (w : World) (now : Int) (id data : JsVal) :
      Step numberToString w (editPrompt w now id data).2
  | delete (w : World) (id : JsVal) : Step numberToString w (deletePrompt w id)
  | toggle (w : World) (id : JsVal) : Step numberToString w (toggleFavorite w id)
  | increment (w : World) (id : JsVal) :
      Step numberToString w (afterIncrementUsage numberToString w id)

/-- The patch of an update of `id` does not give the record an id that another record holds:
either it specifies no id, or every stored record whose id equals the specified one is a
record with the id `id` (the record being updated itself, when ids are unique). -/
def keepsOtherIds (w : World) (id data : JsVal) : Prop :=
  ∀ v, patchField data "id" = some v →
    ∀ q ∈ w.prompts, JsVal.strictEq (Obj.get q "id") v = true →
      JsVal.strictEq (Obj.get q "id") id = true

/-- One call of create, delete, toggleFavorite or incrementUsage with any arguments, or of
update with any arguments with which it fails or does not give the record an id that another
record holds. -/
inductive IdKeepingStep (numberToString : Int → String) : World → World → Prop where
  | create (w : World) (prompt : JsVal) : IdKeepingStep numberToString w (addPrompt w prompt).2
  | update (w : World) (now : Int) (id data : JsVal)
      (h : (editPrompt w now id data).1 = true → keepsOtherIds w id data) :
      IdKeepingStep numberToString w (editPrompt w now id data).2
  | delete (w : World) (id : JsVal) : IdKeepingStep numberToString w (deletePrompt w id)
  | toggle (w : World) (id : JsVal) : IdKeepingStep numberToString w (toggleFavorite w id)
  | increment (w : World) (id : JsVal) :
      IdKeepingStep numberToString w (afterIncrementUsage numberToString w id)

/-- The fields the specification protects from update: id, createdAt, favorite, usageCount. -/
def protectedFields : List String :=
  ["id", "createdAt", "favorite", "usageCount"]

/-! ## Notions of the code used in the statements -/

/-- The patch is truthy and its folderId is falsy. -/
def patchLacksFolder (data : JsVal) : Bool :=
  data.truthy && !(data.member "folderId").truthy

/-- The types `init` establishes: as `isRecord`, but tags is any array and usageCount any
number. -/
def isTypedRecord (r : Obj) : Bool :=
  isStringVal (Obj.get r "id") &&
  isStringVal (Obj.get r "text") &&
  (Obj.get r "tags").isArray &&
  isBoolVal (Obj.get r "favorite") &&
  (isStringVal (Obj.get r "folderId") || isNullVal (Obj.get r "folderId")) &&
  isNumberVal (Obj.get r "createdAt") &&
  isNumberVal (Obj.get r "updatedAt") &&
  isNumberVal (Obj.get r "usageCount")

/-- The world after a successful create of the record `p`: the record appended, the full new
collection saved, one `promptCreated` event. -/
def created (w : World) (p : Obj) : World :=
  { prompts := w.prompts ++ [p]
    saved := w.saved ++ [w.prompts ++ [p]]
    emitted := w.emitted ++ [Event.promptCreated p]
    errors := w.errors }

/-- The world after a successful update of the record at position `idx`: that record
replaced by the merge, the full collection saved, one `promptUpdated` event. -/
def updated (w : World) (now : Int) (id data : JsVal) (idx : Nat) : World :=
  { prompts := w.prompts.set idx (mergePatch (w.prompts.getD idx []) data now)
    saved := w.saved ++ [w.prompts.set idx (mergePatch (w.prompts.getD idx []) data now)]
    emitted := w.emitted ++
      [Event.promptUpdated id (mergePatch (w.prompts.getD idx []) data now) data]
    errors := w.errors }

/-- The number the comparator of `sortDesc` reads from a record: `(p.field || 0)`. -/
def comparedKey (field : String) (p : Obj) : Int :=
  (keyOrZero (Obj.get p field)).getD 0

/-- The world after `toggleFavorite` found the first record with the id at position `idx`:
its favorite negated, the full collection saved, one `promptFavorited` event. -/
def toggled (w : World) (id : JsVal) (idx : Nat) : World :=
  { prompts := w.prompts.set idx
      (Obj.set (w.prompts.getD idx []) "favorite"
        (JsVal.bool (!(Obj.get (w.prompts.getD idx []) "favorite").truthy)))
    saved := w.saved ++ [w.prompts.set idx
      (Obj.set (w.prompts.getD idx []) "favorite"
        (JsVal.bool (!(Obj.get (w.prompts.getD idx []) "favorite").truthy)))]
    emitted := w.emitted ++
      [Event.promptFavorited id
        (Obj.set (w.prompts.getD idx []) "favorite"
          (JsVal.bool (!(Obj.get (w.prompts.getD idx []) "favorite").truthy)))
        (JsVal.bool (!(Obj.get (w.prompts.getD idx []) "favorite").truthy))]
    errors := w.errors }

/-- The world after `incrementUsage` found the first record with the id at position `idx`
and computed the new count: the count stored, the full collection saved, one `promptCopied`
event. -/
def incremented (w : World) (id : JsVal) (idx : Nat) (count : JsVal) : World :=
  { prompts := w.prompts.set idx (Obj.set (w.prompts.getD idx []) "usageCount" count)
    saved := w.saved ++
      [w.prompts.set idx (Obj.set (w.prompts.getD idx []) "usageCount" count)]
    emitted := w.emitted ++
      [Event.promptCopied id (Obj.set (w.prompts.getD idx []) "usageCount" count) count]
    errors := w.errors }

mutual
/-- The string conversion of the value does not throw: the value is not an object with an
own property named `toString`, nor an array that holds such a value, at any depth of
arrays. -/
def stringifies : JsVal → Bool
  | JsVal.arr items => allStringify items
  | JsVal.obj props => (Obj.lookup "toString" props).isNone
  | _ => true
/-- Every value of the list `stringifies`. -/
def allStringify : List JsVal → Bool
  | [] => true
  | x :: rest => stringifies x && allStringify rest
end

/-- One call `incrementUsage(id)` returns and leaves the count `c` in the record at position
`idx`, which was `old` before the call, with every other field of that record and every
other record unchanged. -/
def storesCount (numberToString : Int → String) (w : World) (id : JsVal) (idx : Nat)
    (old : Obj) (c : JsVal) : Prop :=
  ∃ (w1 : World) (new : Obj), incrementUsage numberToString w id = Except.ok w1 ∧
    w1.prompts[idx]? = some new ∧
    Obj.get new "usageCount" = c ∧
    (∀ k, k ≠ "usageCount" → Obj.lookup k new = Obj.lookup k old) ∧
    w1.prompts.length = w.prompts.length ∧
    (∀ j, j ≠ idx → w1.prompts[j]? = w.prompts[j]?)

/-! ## Sample data -/

/-- A world with an empty collection and nothing logged. -/
def emptyWorld : World :=
  { prompts := [], saved := [], emitted := [], errors := [] }

/-- The stored record of the specification's update example. -/
def recA : Obj :=
  [("id", JsVal.str "a"), ("text", JsVal.str "x"), ("tags", JsVal.arr [JsVal.str "t1"]),
   ("folderId", JsVal.str "f1"), ("favorite", JsVal.bool false)]

/-- A world whose collection is the single record `recA`. -/
def worldA : World :=
  { prompts := [recA], saved := [], emitted := [], errors := [] }

/-- A record with non-blank text whose folderId is the empty string. -/
def emptyFolderPrompt : JsVal :=
  JsVal.obj [("id", JsVal.str "b"), ("text", JsVal.str "hi"), ("folderId", JsVal.str "")]

/-- A record that meets every precondition of create in `worldA`. -/
def goodPrompt : JsVal :=
  JsVal.obj [("id", JsVal.str "b"), ("text", JsVal.str "hi"), ("folderId", JsVal.str "f1")]

/-- A patch with a new text whose folderId is the empty string. -/
def emptyFolderPatch : JsVal :=
  JsVal.obj [("text", JsVal.str "y"), ("folderId", JsVal.str "")]

/-- The patch of the specification's update example. -/
def patchY : JsVal :=
  JsVal.obj [("text", JsVal.str "y"), ("folderId", JsVal.str "f1")]

/-- A normalised record with id `"a"`. -/
def recA1 : Obj :=
  [("id", JsVal.str "a"), ("text", JsVal.str "x"), ("tags", JsVal.arr []),
   ("favorite", JsVal.bool false), ("folderId", JsVal.str "f1"), ("createdAt", JsVal.num 1),
   ("updatedAt", JsVal.num 1), ("usageCount", JsVal.num 0)]

/-- Another normalised record with the same id `"a"`. -/
def recA2 : Obj :=
  [("id", JsVal.str "a"), ("text", JsVal.str "y"), ("tags", JsVal.arr []),
   ("favorite", JsVal.bool false), ("folderId", JsVal.str "f1"), ("createdAt", JsVal.num 2),
   ("updatedAt", JsVal.num 2), ("usageCount", JsVal.num 0)]

/-- A world whose collection holds two records with the id `"a"`. -/
def dupWorld : World :=
  { prompts := [recA1, recA2], saved := [], emitted := [], errors := [] }

/-- A host whose id generator always answers `"u"` and whose clock always reads 7. -/
def sampleHost : Host :=
  { generateUUID := fun _ => "u", now := fun _ => 7 }

/-- No ambient call made yet. -/
def noCalls : Calls :=
  { uuid := 0, now := 0 }

/-- A raw value with a negative usageCount and a number among its tags. -/
def oddRaw : JsVal :=
  JsVal.obj [("id", JsVal.str "a"), ("tags", JsVal.arr [JsVal.num 1]),
    ("usageCount", JsVal.num (-1))]

/-- The first record of the specification's filter example, completed to a full record. -/
def recHello : Obj :=
  [("id", JsVal.str "h"), ("text", JsVal.str "Hello"), ("tags", JsVal.arr [JsVal.str "a"]),
   ("favorite", JsVal.bool true), ("folderId", JsVal.str "f1"), ("createdAt", JsVal.num 1),
   ("updatedAt", JsVal.num 1), ("usageCount", JsVal.num 0)]

/-- The second record of the specification's filter example, completed to a full record. -/
def recWorld : Obj :=
  [("id", JsVal.str "w"), ("text", JsVal.str "World"), ("tags", JsVal.arr [JsVal.str "b"]),
   ("favorite", JsVal.bool false), ("folderId", JsVal.str "f1"), ("createdAt", JsVal.num 2),
   ("updatedAt", JsVal.num 2), ("usageCount", JsVal.num 0)]

/-- The criteria of the specification's filter example: `{folder: "f1", favorite: true}`. -/
def criteriaF1Fav : JsVal :=
  JsVal.obj [("folder", JsVal.str "f1"), ("favorite", JsVal.bool true)]

/-- Lower-casing of the ASCII letters, an instance of the `toLowerCase` parameter. -/
def asciiLower (s : String) : String :=
  ⟨s.data.map Char.toLower⟩

/-- The criteria `{order: "usage"}`. -/
def criteriaByUsage : JsVal :=
  JsVal.obj [("order", JsVal.str "usage")]

/-- A normalised record with id `"b"`. -/
def recB1 : Obj :=
  [("id", JsVal.str "b"), ("text", JsVal.str "z"), ("tags", JsVal.arr []),
   ("favorite", JsVal.bool false), ("folderId", JsVal.str "f1"), ("createdAt", JsVal.num 3),
   ("updatedAt", JsVal.num 3), ("usageCount", JsVal.num 0)]

/-- A world whose collection holds the records `"a"` and `"b"`. -/
def worldAB : World :=
  { prompts := [recA1, recB1], saved := [], emitted := [], errors := [] }

/-- A patch that sets the id to `"a"`. -/
def patchIdA : JsVal :=
  JsVal.obj [("id", JsVal.str "a"), ("folderId", JsVal.str "f1")]

/-- A world whose collection is the single normalised record `recA1`. -/
def worldA1 : World :=
  { prompts := [recA1], saved := [], emitted := [], errors := [] }

/-- A patch that specifies id, createdAt, favorite and usageCount. -/
def patchAll : JsVal :=
  JsVal.obj [("id", JsVal.str "z"), ("createdAt", JsVal.num 0), ("favorite", JsVal.bool true),
    ("usageCount", JsVal.num 99), ("folderId", JsVal.str "f1")]

/-- A second record with the id of `goodPrompt`. -/
def goodPromptAgain : JsVal :=
  JsVal.obj [("id", JsVal.str "b"), ("text", JsVal.str "other"), ("folderId", JsVal.str "f2")]

/-- A record whose usageCount is the string `"5"`. -/
def recStringCount : Obj :=
  [("id", JsVal.str "a"), ("text", JsVal.str "x"), ("folderId", JsVal.str "f1"),
   ("usageCount", JsVal.str "5")]

/-- A world whose collection is the single record `recStringCount`. -/
def worldStringCount : World :=
  { prompts := [recStringCount], saved := [], emitted := [], errors := [] }

/-- Decimal digits, an instance of the `numberToString` parameter. -/
def decimal (n : Int) : String :=
  toString n

/-- A patch that sets the id to the fresh `"c"`. -/
def patchIdC : JsVal :=
  JsVal.obj [("id", JsVal.str "c"), ("folderId", JsVal.str "f1")]

/-- A raw value with a number among its tags. -/
def numTagRaw : JsVal :=
  JsVal.obj [("id", JsVal.str "a"), ("tags", JsVal.arr [JsVal.num 1]),
    ("usageCount", JsVal.num 2)]

/-- What `init` makes of `numTagRaw` under `sampleHost`. -/
def numTagRecord : Obj :=
  [("id", JsVal.str "a"), ("text", JsVal.str ""), ("tags", JsVal.arr [JsVal.num 1]),
   ("favorite", JsVal.bool false), ("folderId", JsVal.null), ("createdAt", JsVal.num 7),
   ("updatedAt", JsVal.num 7), ("usageCount", JsVal.num 2)]

/-- A raw value with a negative usageCount. -/
def negRaw : JsVal :=
  JsVal.obj [("id", JsVal.str "a"), ("tags", JsVal.arr [JsVal.str "t"]),
    ("usageCount", JsVal.num (-1))]

/-- What `init` makes of `negRaw` under `sampleHost`. -/
def negRecord : Obj :=
  [("id", JsVal.str "a"), ("text", JsVal.str ""), ("tags", JsVal.arr [JsVal.str "t"]),
   ("favorite", JsVal.bool false), ("folderId", JsVal.null), ("createdAt", JsVal.num 7),
   ("updatedAt", JsVal.num 7), ("usageCount", JsVal.num (-1))]

/-- The first record of the specification's filter example, as the specification gives
it. -/
def specHello : Obj :=
  [("folderId", JsVal.str "f1"), ("tags", JsVal.arr [JsVal.str "a"]),
   ("favorite", JsVal.bool true), ("text", JsVal.str "Hello")]

/-- The second record of the specification's filter example, as the specification gives
it. -/
def specWorld : Obj :=
  [("folderId", JsVal.str "f1"), ("tags", JsVal.arr [JsVal.str "b"]),
   ("favorite", JsVal.bool false), ("text", JsVal.str "World")]

/-- The criteria `{folder: ""}`. -/
def criteriaEmptyFolder : JsVal :=
  JsVal.obj [("folder", JsVal.str "")]

/-- Records whose usageCount is the empty array, the array `[5, null, [true]]` and an
object with an own `toString` property. -/
def worldOddCounts : World :=
  { prompts :=
      [[("id", JsVal.str "a"), ("usageCount", JsVal.arr [])],
       [("id", JsVal.str "b"),
        ("usageCount", JsVal.arr [JsVal.num 5, JsVal.null, JsVal.arr [JsVal.bool true]])],
       [("id", JsVal.str "c"), ("usageCount", JsVal.obj [("toString", JsVal.num 1)])]]
    saved := [], emitted := [], errors := [] }

/-! # Properties

## Basic facts -/

theorem showError_inj (w : World) (a b : ErrorKey) :
    w.showError a = w.showError b ↔ a = b := by
  constructor
  · intro h
    have h1 : (w.showError a).errors = (w.showError b).errors := by rw [h]
    simpa [World.showError] using h1
  · intro h
    rw [h]

theorem invalid_guard_eq (prompt : JsVal) :
    (!prompt.truthy || blankOrNotString (prompt.member "text")) = invalidRecord prompt := by
  cases prompt with
  | obj props =>
    simp only [JsVal.truthy, JsVal.member, invalidRecord, isAbsent]
    cases Obj.get props "text" <;> simp [blankOrNotString, nonBlankString, JsVal.truthy]
  | _ => simp [JsVal.truthy, JsVal.member, invalidRecord, isAbsent, blankOrNotString,
      nonBlankString]

theorem any_hasId_iff (w : World) (id : JsVal) :
    w.prompts.any (hasId id) = true ↔ idExists w id := by
  simp [idExists, hasId, List.any_eq_true]

theorem ownProps_of_valid (prompt : JsVal) (h : invalidRecord prompt = false) :
    prompt = JsVal.obj prompt.ownProps := by
  cases prompt <;> simp_all [invalidRecord, isAbsent, JsVal.member, nonBlankString,
    JsVal.ownProps]

/-- The four outcomes of `addPrompt`, by its guards. -/
theorem addPrompt_eq (w : World) (prompt : JsVal) :
    addPrompt w prompt =
      if invalidRecord prompt = true then (false, w.showError ErrorKey.invalidPrompts)
      else if (prompt.member "folderId").truthy = false then
        (false, w.showError ErrorKey.mustSelectFolder)
      else if w.prompts.any (hasId (prompt.member "id")) = true then
        (false, w.showError ErrorKey.duplicatePrompt)
      else (true, created w prompt.ownProps) := by
  unfold addPrompt
  rw [invalid_guard_eq]
  by_cases h1 : invalidRecord prompt = true
  · simp [h1]
  · by_cases h2 : (prompt.member "folderId").truthy = false
    · simp [h1, h2]
    · by_cases h3 : w.prompts.any (hasId (prompt.member "id")) = true
      · simp [h1, h2, h3]
      · simp [h1, h2, h3, created, World.savePrompts, World.emit]

/-! ## C1: the preconditions of create -/

/-- C1, amended: `addPrompt` checks its preconditions in order and reports the first that
fails. It fails with `invalidPrompts` exactly when the record is absent or its text is not a
string that is non-empty after trimming; otherwise with `mustSelectFolder` exactly when
`folderId` is falsy (absent, `null`, the empty string, `0` or `false`); otherwise with
`duplicatePrompt` exactly when some stored record has the record's id; otherwise it succeeds. -/
theorem addPrompt_checks_in_order (w : World) (prompt : JsVal) :
    (addPrompt w prompt = (false, w.showError ErrorKey.invalidPrompts) ↔
      invalidRecord prompt = true) ∧
    (addPrompt w prompt = (false, w.showError ErrorKey.mustSelectFolder) ↔
      invalidRecord prompt = false ∧ (prompt.member "folderId").truthy = false) ∧
    (addPrompt w prompt = (false, w.showError ErrorKey.duplicatePrompt) ↔
      invalidRecord prompt = false ∧ (prompt.member "folderId").truthy = true ∧
        idExists w (prompt.member "id")) ∧
    ((addPrompt w prompt).1 = true ↔
      invalidRecord prompt = false ∧ (prompt.member "folderId").truthy = true ∧
        ¬ idExists w (prompt.member "id")) := by
  rw [addPrompt_eq, ← any_hasId_iff]
  by_cases h1 : invalidRecord prompt = true
  · simp [h1, showError_inj]
  · by_cases h2 : (prompt.member "folderId").truthy = false
    · simp [h1, h2, showError_inj]
    · by_cases h3 : w.prompts.any (hasId (prompt.member "id")) = true
      · simp [h1, h2, h3, showError_inj]
      · simp [h1, h2, h3, showError_inj]

/-- C1 as stated fails on the code: the record `{id: "b", text: "hi", folderId: ""}` has
non-blank text, a folderId that is a string and not the absent-marker, and an id that no
stored record has, yet `addPrompt` rejects it with `mustSelectFolder`. -/
theorem addPrompt_rejects_empty_string_folder :
    invalidRecord emptyFolderPrompt = false ∧
    isConcrete (emptyFolderPrompt.member "folderId") = true ∧
    emptyWorld.prompts.any (hasId (emptyFolderPrompt.member "id")) = false ∧
    addPrompt emptyWorld emptyFolderPrompt =
      (false, emptyWorld.showError ErrorKey.mustSelectFolder) :=
  ⟨rfl, rfl, rfl, rfl⟩

/-- The amended C1 at concrete records: `goodPrompt` is accepted by `worldA`, and a value
that is not a record is rejected as invalid. -/
theorem addPrompt_checks_in_order_witness :
    (addPrompt worldA goodPrompt).1 = true ∧
    addPrompt worldA JsVal.null = (false, worldA.showError ErrorKey.invalidPrompts) :=
  ⟨(addPrompt_checks_in_order worldA goodPrompt).2.2.2.mpr
      ⟨rfl, rfl, by simp [idExists, worldA, recA, goodPrompt, JsVal.member, Obj.get, Obj.lookup,
        JsVal.strictEq]⟩,
   (addPrompt_checks_in_order worldA JsVal.null).1.mpr rfl⟩

theorem blank_guard_eq (data : JsVal) :
    (data.truthy && blankString (data.member "text")) = patchTextBlank data := by
  cases data with
  | obj props =>
    simp only [JsVal.truthy, JsVal.member, patchTextBlank]
    cases Obj.get props "text" <;> simp [blankString, JsVal.truthy, bne]
  | _ => simp [JsVal.member, patchTextBlank, blankString]

theorem findIdx?_hasId_eq_none_iff (w : World) (id : JsVal) :
    w.prompts.findIdx? (hasId id) = none ↔ ¬ idExists w id := by
  simp [idExists, hasId]

/-- The outcomes of `editPrompt`, by its guards. -/
theorem editPrompt_eq (w : World) (now : Int) (id data : JsVal) :
    editPrompt w now id data =
      match w.prompts.findIdx? (hasId id) with
      | none => (false, w.showError ErrorKey.invalidPrompts)
      | some idx =>
        if patchTextBlank data = true then (false, w.showError ErrorKey.invalidPrompts)
        else if patchLacksFolder data = true then
          (false, w.showError ErrorKey.mustSelectFolderEdit)
        else (true, updated w now id data idx) := by
  unfold editPrompt
  rw [blank_guard_eq]
  cases w.prompts.findIdx? (hasId id) with
  | none => rfl
  | some idx =>
    by_cases h1 : patchTextBlank data = true
    · simp [h1]
    · by_cases h2 : patchLacksFolder data = true
      · have h2' := h2
        simp only [patchLacksFolder] at h2'
        simp [h1, h2, h2']
      · have h2' := h2
        simp only [patchLacksFolder] at h2'
        simp [h1, h2, h2', updated, World.savePrompts, World.emit]

/-! ## C2: failure is atomic -/

/-- C2: whenever `addPrompt` or `editPrompt` returns `false`, the collection is what it was
before the call, nothing was saved and no event was emitted. -/
theorem failure_is_atomic (w : World) (now : Int) (prompt id data : JsVal) :
    ((addPrompt w prompt).1 = false →
      (addPrompt w prompt).2.prompts = w.prompts ∧
      (addPrompt w prompt).2.saved = w.saved ∧
      (addPrompt w prompt).2.emitted = w.emitted) ∧
    ((editPrompt w now id data).1 = false →
      (editPrompt w now id data).2.prompts = w.prompts ∧
      (editPrompt w now id data).2.saved = w.saved ∧
      (editPrompt w now id data).2.emitted = w.emitted) := by
  constructor
  · rw [addPrompt_eq]
    split_ifs <;> simp [World.showError]
  · rw [editPrompt_eq]
    cases w.prompts.findIdx? (hasId id) with
    | none => simp [World.showError]
    | some idx =>
      dsimp only
      split_ifs <;> simp [World.showError]

/-- C2 at concrete inputs: the failed create of `emptyFolderPrompt` and the failed update
with `emptyFolderPatch` leave `worldA` as it was. -/
theorem failure_is_atomic_witness :
    ((addPrompt worldA emptyFolderPrompt).2.prompts = worldA.prompts ∧
      (addPrompt worldA emptyFolderPrompt).2.saved = worldA.saved ∧
      (addPrompt worldA emptyFolderPrompt).2.emitted = worldA.emitted) ∧
    ((editPrompt worldA 5 (JsVal.str "a") emptyFolderPatch).2.prompts = worldA.prompts ∧
      (editPrompt worldA 5 (JsVal.str "a") emptyFolderPatch).2.saved = worldA.saved ∧
      (editPrompt worldA 5 (JsVal.str "a") emptyFolderPatch).2.emitted = worldA.emitted) :=
  ⟨(failure_is_atomic worldA 5 emptyFolderPrompt (JsVal.str "a") emptyFolderPatch).1 rfl,
   (failure_is_atomic worldA 5 emptyFolderPrompt (JsVal.str "a") emptyFolderPatch).2 rfl⟩

/-! ## C3: a successful create -/

/-- C3: for a record that passes the three guards of `addPrompt` (valid text, truthy
folderId, id not yet stored), the call returns `true`, the value is a record `p`, the new
collection is the old one with `p` appended, the collection given to `savePrompts` is that
full new collection, and exactly one event, `promptCreated` carrying `p`, is emitted. -/
theorem addPrompt_success (w : World) (prompt : JsVal)
    (hvalid : invalidRecord prompt = false)
    (hfolder : (prompt.member "folderId").truthy = true)
    (hfresh : ¬ idExists w (prompt.member "id")) :
    ∃ p : Obj, prompt = JsVal.obj p ∧
      (addPrompt w prompt).1 = true ∧
      (addPrompt w prompt).2.prompts = w.prompts ++ [p] ∧
      (addPrompt w prompt).2.prompts.length = w.prompts.length + 1 ∧
      (addPrompt w prompt).2.saved = w.saved ++ [w.prompts ++ [p]] ∧
      (addPrompt w prompt).2.emitted = w.emitted ++ [Event.promptCreated p] ∧
      (addPrompt w prompt).2.errors = w.errors := by
  refine ⟨prompt.ownProps, ownProps_of_valid prompt hvalid, ?_⟩
  rw [← any_hasId_iff] at hfresh
  rw [addPrompt_eq]
  simp [hvalid, hfolder, hfresh, created]

/-- C3 at a concrete record: `goodPrompt` is appended to `worldA`. -/
theorem addPrompt_success_witness :
    ∃ p : Obj, goodPrompt = JsVal.obj p ∧
      (addPrompt worldA goodPrompt).1 = true ∧
      (addPrompt worldA goodPrompt).2.prompts = worldA.prompts ++ [p] ∧
      (addPrompt worldA goodPrompt).2.prompts.length = worldA.prompts.length + 1 ∧
      (addPrompt worldA goodPrompt).2.saved = worldA.saved ++ [worldA.prompts ++ [p]] ∧
      (addPrompt worldA goodPrompt).2.emitted = worldA.emitted ++ [Event.promptCreated p] ∧
      (addPrompt worldA goodPrompt).2.errors = worldA.errors :=
  addPrompt_success worldA goodPrompt rfl rfl
    (by simp [idExists, worldA, recA, goodPrompt, JsVal.member, Obj.get, Obj.lookup,
      JsVal.strictEq])

/-! ## C4: the preconditions of update -/

/-- C4, amended: `editPrompt` checks its preconditions in order. It fails with the message
`invalidPrompts` exactly when no stored record has the id or, a record having it, the patch
carries a text that is blank after trimming (the two failures are reported alike);
otherwise it fails with `mustSelectFolderEdit` exactly when the patch is truthy and its
`folderId` is falsy (absent, `null`, the empty string, `0` or `false`); otherwise it
succeeds. -/
theorem editPrompt_checks_in_order (w : World) (now : Int) (id data : JsVal) :
    (¬ idExists w id → editPrompt w now id data = (false, w.showError ErrorKey.invalidPrompts)) ∧
    (idExists w id →
      ((editPrompt w now id data = (false, w.showError ErrorKey.invalidPrompts) ↔
          patchTextBlank data = true) ∧
       (editPrompt w now id data = (false, w.showError ErrorKey.mustSelectFolderEdit) ↔
          patchTextBlank data = false ∧ patchLacksFolder data = true) ∧
       ((editPrompt w now id data).1 = true ↔
          patchTextBlank data = false ∧ patchLacksFolder data = false))) := by
  rw [editPrompt_eq]
  cases h : w.prompts.findIdx? (hasId id) with
  | none =>
    have hno := (findIdx?_hasId_eq_none_iff w id).mp h
    simp [hno]
  | some idx =>
    have hyes : idExists w id := by
      by_contra hno
      rw [(findIdx?_hasId_eq_none_iff w id).mpr hno] at h
      cases h
    by_cases h1 : patchTextBlank data = true
    · simp [h1, hyes, showError_inj]
    · by_cases h2 : patchLacksFolder data = true
      · simp [h1, h2, hyes, showError_inj]
      · simp [h1, h2, hyes, showError_inj]

/-- C4 as stated fails on the code: for the stored id `"a"`, the patch
`{text: "y", folderId: ""}` has a non-blank text and carries a folderId that is a string and
not the absent-marker, yet `editPrompt` rejects it with `mustSelectFolderEdit`. -/
theorem editPrompt_rejects_empty_string_folder :
    worldA.prompts.any (hasId (JsVal.str "a")) = true ∧
    patchTextBlank emptyFolderPatch = false ∧
    patchLacksConcreteFolder emptyFolderPatch = false ∧
    editPrompt worldA 5 (JsVal.str "a") emptyFolderPatch =
      (false, worldA.showError ErrorKey.mustSelectFolderEdit) :=
  ⟨rfl, rfl, rfl, rfl⟩

/-- The amended C4 at concrete inputs: in `worldA` the update of `"a"` with `patchY`
succeeds and the update of the unknown id `"zz"` fails. -/
theorem editPrompt_checks_in_order_witness :
    (editPrompt worldA 5 (JsVal.str "a") patchY).1 = true ∧
    editPrompt worldA 5 (JsVal.str "zz") patchY =
      (false, worldA.showError ErrorKey.invalidPrompts) :=
  ⟨((editPrompt_checks_in_order worldA 5 (JsVal.str "a") patchY).2
      ((any_hasId_iff worldA (JsVal.str "a")).mp rfl)).2.2.mpr ⟨rfl, rfl⟩,
   (editPrompt_checks_in_order worldA 5 (JsVal.str "zz") patchY).1
      (fun h => Bool.false_ne_true ((any_hasId_iff worldA (JsVal.str "zz")).mpr h))⟩

/-! ## Property lists -/

theorem lookup_nil (k : String) : Obj.lookup k [] = none := rfl

theorem lookup_cons (k : String) (kv : String × JsVal) (rest : Obj) :
    Obj.lookup k (kv :: rest) =
      match Obj.lookup k rest with
      | some w => some w
      | none => if kv.1 = k then some kv.2 else none := by
  cases kv
  rfl

theorem lookup_append (k : String) (a b : Obj) :
    Obj.lookup k (a ++ b) =
      match Obj.lookup k b with
      | some v => some v
      | none => Obj.lookup k a := by
  induction a with
  | nil => cases h : Obj.lookup k b <;> simp [lookup_nil, h]
  | cons kv a ih =>
    rw [List.cons_append, lookup_cons, ih, lookup_cons]
    cases Obj.lookup k b <;> simp

theorem lookup_map_set (k k' : String) (v : JsVal) (o : Obj) :
    Obj.lookup k (o.map (fun kv => if kv.1 = k' then (k', v) else kv)) =
      if k = k' then (Obj.lookup k' o).map (fun _ => v) else Obj.lookup k o := by
  induction o with
  | nil => simp [lookup_nil]
  | cons kv o ih =>
    rw [List.map_cons, lookup_cons, ih, lookup_cons, lookup_cons]
    by_cases hk : k = k'
    · subst hk
      by_cases h1 : kv.1 = k
      · cases Obj.lookup k o <;> simp [h1]
      · cases Obj.lookup k o <;> simp [h1]
    · have hk' : ¬ k' = k := fun e => hk e.symm
      by_cases h1 : kv.1 = k'
      · have h3 : ¬ kv.1 = k := fun e => hk (e.symm.trans h1)
        cases Obj.lookup k o <;> simp [hk, hk', h1, h3]
      · cases Obj.lookup k o <;> simp [hk, h1]

theorem lookup_set (k k' : String) (v : JsVal) (o : Obj) :
    Obj.lookup k (Obj.set o k' v) = if k = k' then some v else Obj.lookup k o := by
  unfold Obj.set
  cases h : Obj.lookup k' o with
  | some x =>
    simp only [Option.isSome_some, if_true, lookup_map_set, h]
    by_cases hk : k = k' <;> simp [hk]
  | none =>
    simp only [Option.isSome_none, Bool.false_eq_true, if_false]
    rw [lookup_append, lookup_cons, lookup_nil]
    by_cases hk : k = k'
    · subst hk
      simp
    · have hk' : ¬ k' = k := fun e => hk e.symm
      simp [hk, hk']

theorem lookup_assign (k : String) (source target : Obj) :
    Obj.lookup k (Obj.assign target source) =
      match Obj.lookup k source with
      | some v => some v
      | none => Obj.lookup k target := by
  unfold Obj.assign
  induction source generalizing target with
  | nil => simp [lookup_nil]
  | cons kv source ih =>
    rw [List.foldl_cons, ih, lookup_cons, lookup_set]
    cases Obj.lookup k source with
    | some x => simp
    | none =>
      by_cases h1 : kv.1 = k
      · simp [h1]
      · have h2 : ¬ k = kv.1 := fun e => h1 e.symm
        simp [h1, h2]

theorem ownProps_lookup (data : JsVal) (k : String) :
    Obj.lookup k data.ownProps = patchField data k := by
  cases data <;> simp [JsVal.ownProps, patchField, Obj.lookup]

theorem lookup_mergePatch (k : String) (old : Obj) (data : JsVal) (now : Int) :
    Obj.lookup k (mergePatch old data now) =
      if k = "updatedAt" then some (JsVal.num now)
      else
        match patchField data k with
        | some v => some v
        | none => Obj.lookup k old := by
  simp only [mergePatch, lookup_set, lookup_assign, ownProps_lookup]

/-! ## C5: the merge of a successful update -/

/-- C5: when `editPrompt` succeeds, the first stored record with the id, at position `idx`,
is replaced by a record `new` in which `updatedAt` is the current time, whatever the patch
says, every other field the patch specifies has the patch's value and every field it does
not specify has its previous value; the length of the collection and the records at all
other positions are unchanged. -/
theorem editPrompt_merges (w : World) (now : Int) (id data : JsVal)
    (hok : (editPrompt w now id data).1 = true) :
    ∃ (idx : Nat) (old new : Obj),
      w.prompts[idx]? = some old ∧ hasId id old = true ∧
      (∀ j q, j < idx → w.prompts[j]? = some q → hasId id q = false) ∧
      (editPrompt w now id data).2.prompts[idx]? = some new ∧
      Obj.lookup "updatedAt" new = some (JsVal.num now) ∧
      (∀ k v, k ≠ "updatedAt" → patchField data k = some v → Obj.lookup k new = some v) ∧
      (∀ k, k ≠ "updatedAt" → patchField data k = none → Obj.lookup k new = Obj.lookup k old) ∧
      (editPrompt w now id data).2.prompts.length = w.prompts.length ∧
      (∀ j, j ≠ idx → (editPrompt w now id data).2.prompts[j]? = w.prompts[j]?) := by
  rw [editPrompt_eq] at hok ⊢
  cases h : w.prompts.findIdx? (hasId id) with
  | none => simp [h] at hok
  | some idx =>
    simp only [h] at hok ⊢
    obtain ⟨hlt, hp, hmin⟩ := List.findIdx?_eq_some_iff_getElem.mp h
    have hget : w.prompts[idx]? = some w.prompts[idx] := List.getElem?_eq_getElem hlt
    have hgetD : w.prompts.getD idx [] = w.prompts[idx] := by
      simp [List.getD_eq_getElem?_getD, hget]
    by_cases h1 : patchTextBlank data = true
    · simp [h1] at hok
    · by_cases h2 : patchLacksFolder data = true
      · simp [h1, h2] at hok
      · simp only [h1, h2, if_false, updated, hgetD]
        refine ⟨idx, w.prompts[idx], mergePatch w.prompts[idx] data now, hget, hp, ?_, ?_, ?_,
          ?_, ?_, ?_, ?_⟩
        · intro j q hj hq
          have hjl : j < w.prompts.length := Nat.lt_trans hj hlt
          rw [List.getElem?_eq_getElem hjl] at hq
          cases hq
          simpa using hmin j hj
        · simp [List.getElem?_set_self hlt]
        · simp [lookup_mergePatch]
        · intro k v hk hv
          simp [lookup_mergePatch, hk, hv]
        · intro k hk hv
          simp [lookup_mergePatch, hk, hv]
        · simp
        · intro j hj
          exact List.getElem?_set_ne (Ne.symm hj)

/-- C5 on the specification's example: updating `recA` with `{text: "y", folderId: "f1"}`
at time 5. -/
theorem editPrompt_merges_witness :
    ∃ (idx : Nat) (old new : Obj),
      worldA.prompts[idx]? = some old ∧ hasId (JsVal.str "a") old = true ∧
      (∀ j q, j < idx → worldA.prompts[j]? = some q → hasId (JsVal.str "a") q = false) ∧
      (editPrompt worldA 5 (JsVal.str "a") patchY).2.prompts[idx]? = some new ∧
      Obj.lookup "updatedAt" new = some (JsVal.num 5) ∧
      (∀ k v, k ≠ "updatedAt" → patchField patchY k = some v → Obj.lookup k new = some v) ∧
      (∀ k, k ≠ "updatedAt" → patchField patchY k = none →
        Obj.lookup k new = Obj.lookup k old) ∧
      (editPrompt worldA 5 (JsVal.str "a") patchY).2.prompts.length = worldA.prompts.length ∧
      (∀ j, j ≠ idx →
        (editPrompt worldA 5 (JsVal.str "a") patchY).2.prompts[j]? = worldA.prompts[j]?) :=
  editPrompt_merges worldA 5 (JsVal.str "a") patchY rfl

/-! ## C6 and C7: delete -/

theorem find?_hasId_eq_none_iff (w : World) (id : JsVal) :
    w.prompts.find? (hasId id) = none ↔ ¬ idExists w id := by
  simp [idExists, hasId]

/-- C6: deleting an id that no stored record has leaves the collection identical, record for
record and in the same order, and emits no event. -/
theorem deletePrompt_absent (w : World) (id : JsVal) (h : ¬ idExists w id) :
    (deletePrompt w id).prompts = w.prompts ∧ (deletePrompt w id).emitted = w.emitted := by
  have hfind := (find?_hasId_eq_none_iff w id).mpr h
  have hall : ∀ p ∈ w.prompts, (!hasId id p) = true := by
    intro p hp
    have := (List.find?_eq_none.mp hfind) p hp
    simpa using this
  simp only [deletePrompt, hfind, World.savePrompts]
  exact ⟨List.filter_eq_self.mpr hall, trivial⟩

/-- C6 at a concrete input: deleting `"nonexistent"` from `worldA`. -/
theorem deletePrompt_absent_witness :
    (deletePrompt worldA (JsVal.str "nonexistent")).prompts = worldA.prompts ∧
    (deletePrompt worldA (JsVal.str "nonexistent")).emitted = worldA.emitted :=
  deletePrompt_absent worldA (JsVal.str "nonexistent")
    (fun h => Bool.false_ne_true ((any_hasId_iff worldA (JsVal.str "nonexistent")).mpr h))

/-- C7, amended: when some stored record has the id, `deletePrompt` removes every record with
that id and keeps all the others, unchanged and in their order; no record with the id
remains; the length drops by the number of records that had the id, which is at least one,
and by exactly one when exactly one record had it; and exactly one event is emitted,
`promptRemoved` with the id and the first record that had it. -/
theorem deletePrompt_removes (w : World) (id : JsVal) (h : idExists w id) :
    ∃ d : Obj, w.prompts.find? (hasId id) = some d ∧
      (deletePrompt w id).prompts = w.prompts.filter (fun p => !hasId id p) ∧
      (∀ q ∈ (deletePrompt w id).prompts, hasId id q = false) ∧
      (deletePrompt w id).prompts.length + w.prompts.countP (hasId id) = w.prompts.length ∧
      0 < w.prompts.countP (hasId id) ∧
      (w.prompts.countP (hasId id) = 1 →
        (deletePrompt w id).prompts.length + 1 = w.prompts.length) ∧
      (deletePrompt w id).emitted = w.emitted ++ [Event.promptRemoved id d] := by
  cases hfind : w.prompts.find? (hasId id) with
  | none => exact absurd h ((find?_hasId_eq_none_iff w id).mp hfind)
  | some d =>
    have hlen : (w.prompts.filter (fun p => !hasId id p)).length +
        w.prompts.countP (hasId id) = w.prompts.length := by
      have hpred : (fun p => !hasId id p) = (fun a => decide ¬ hasId id a = true) := by
        funext p
        cases hasId id p <;> simp
      rw [List.length_eq_countP_add_countP (hasId id) w.prompts, List.countP_eq_length_filter,
        List.countP_eq_length_filter, hpred]
      omega
    have hpos : 0 < w.prompts.countP (hasId id) := by
      obtain ⟨q, hq, hid⟩ := h
      exact List.countP_pos_iff.mpr ⟨q, hq, hid⟩
    refine ⟨d, rfl, ?_, ?_, ?_, hpos, ?_, ?_⟩
    · simp [deletePrompt, hfind, World.savePrompts, World.emit]
    · intro q hq
      simp only [deletePrompt, hfind, World.savePrompts, World.emit, List.mem_filter] at hq
      simpa using hq.2
    · simpa [deletePrompt, hfind, World.savePrompts, World.emit] using hlen
    · intro h1
      have : (deletePrompt w id).prompts.length + w.prompts.countP (hasId id) =
          w.prompts.length := by
        simpa [deletePrompt, hfind, World.savePrompts, World.emit] using hlen
      omega
    · simp [deletePrompt, hfind, World.savePrompts, World.emit]

/-- C7 as stated fails on the code: `init` keeps two loaded records that share the id
`"a"`, and deleting `"a"` from the resulting collection of length 2 leaves length 0, a drop
by two. -/
theorem deletePrompt_drops_two :
    init sampleHost noCalls emptyWorld [JsVal.obj recA1, JsVal.obj recA2] =
      Except.ok (dupWorld, noCalls) ∧
    dupWorld.prompts.any (hasId (JsVal.str "a")) = true ∧
    dupWorld.prompts.length = 2 ∧
    (deletePrompt dupWorld (JsVal.str "a")).prompts.length = 0 :=
  ⟨rfl, rfl, rfl, rfl⟩

/-- The amended C7 at a concrete input: deleting `"a"` from `worldA`. -/
theorem deletePrompt_removes_witness :
    ∃ d : Obj, worldA.prompts.find? (hasId (JsVal.str "a")) = some d ∧
      (deletePrompt worldA (JsVal.str "a")).prompts =
        worldA.prompts.filter (fun p => !hasId (JsVal.str "a") p) ∧
      (∀ q ∈ (deletePrompt worldA (JsVal.str "a")).prompts, hasId (JsVal.str "a") q = false) ∧
      (deletePrompt worldA (JsVal.str "a")).prompts.length +
        worldA.prompts.countP (hasId (JsVal.str "a")) = worldA.prompts.length ∧
      0 < worldA.prompts.countP (hasId (JsVal.str "a")) ∧
      (worldA.prompts.countP (hasId (JsVal.str "a")) = 1 →
        (deletePrompt worldA (JsVal.str "a")).prompts.length + 1 = worldA.prompts.length) ∧
      (deletePrompt worldA (JsVal.str "a")).emitted =
        worldA.emitted ++ [Event.promptRemoved (JsVal.str "a") d] :=
  deletePrompt_removes worldA (JsVal.str "a") ((any_hasId_iff worldA (JsVal.str "a")).mp rfl)

/-! ## C8 and C9: normalisation -/

theorem typeof_string_iff (v : JsVal) : v.typeof = "string" ↔ isStringVal v = true := by
  cases v <;> simp [JsVal.typeof, isStringVal]

theorem typeof_number_iff (v : JsVal) : v.typeof = "number" ↔ isNumberVal v = true := by
  cases v <;> simp [JsVal.typeof, isNumberVal]

theorem strictEq_null_eq (v : JsVal) : JsVal.strictEq v JsVal.null = isNullVal v := by
  cases v <;> simp [JsVal.strictEq, isNullVal]

theorem normId_eq (h : Host) (c : Calls) (v : JsVal) :
    normId h c v =
      if isStringVal v = true then (v, c)
      else (JsVal.str (h.generateUUID c.uuid), { c with uuid := c.uuid + 1 }) := by
  unfold normId
  by_cases hv : isStringVal v = true
  · simp [hv, (typeof_string_iff v).mpr hv]
  · have : ¬ v.typeof = "string" := fun e => hv ((typeof_string_iff v).mp e)
    simp [hv, this]

theorem normTime_eq (h : Host) (c : Calls) (v : JsVal) :
    normTime h c v =
      if isNumberVal v = true then (v, c)
      else (JsVal.num (h.now c.now), { c with now := c.now + 1 }) := by
  unfold normTime
  by_cases hv : isNumberVal v = true
  · simp [hv, (typeof_number_iff v).mpr hv]
  · have : ¬ v.typeof = "number" := fun e => hv ((typeof_number_iff v).mp e)
    simp [hv, this]

/-- The arrow function of `init` on a value other than `null` and `undefined`: it returns
the record of the field rules, the id generated (when one is) being the next one of the
generator, and it calls the generator only when the raw id is not a string. -/
theorem normalize_present (h : Host) (c : Calls) (p : JsVal) (hp : isAbsent p = false) :
    ∃ (k1 k2 : Nat) (c1 : Calls),
      normalize h c p =
        Except.ok (normalizedRecord p (h.generateUUID c.uuid) (h.now k1) (h.now k2), c1) ∧
      c1.uuid = (if isStringVal (p.member "id") = true then c.uuid else c.uuid + 1) := by
  have hnorm : normalize h c p =
      (let id := normId h c (p.member "id")
       let createdAt := normTime h id.2 (p.member "createdAt")
       let updatedAt := normTime h createdAt.2 (p.member "updatedAt")
       Except.ok
        ([("id", id.1),
          ("text", if (p.member "text").typeof = "string" then p.member "text"
            else JsVal.str ""),
          ("tags", if (p.member "tags").isArray then p.member "tags" else JsVal.arr []),
          ("favorite", JsVal.bool (p.member "favorite").truthy),
          ("folderId",
            if (p.member "folderId").typeof = "string" ||
                JsVal.strictEq (p.member "folderId") JsVal.null
            then p.member "folderId" else JsVal.null),
          ("createdAt", createdAt.1), ("updatedAt", updatedAt.1),
          ("usageCount", if (p.member "usageCount").typeof = "number"
            then p.member "usageCount" else JsVal.num 0)], updatedAt.2)) := by
    cases p <;> first | rfl | simp [isAbsent] at hp
  rw [hnorm]
  simp only [normId_eq, normTime_eq, typeof_string_iff, typeof_number_iff, strictEq_null_eq,
    normalizedRecord, Bool.or_eq_true, decide_eq_true_eq]
  refine ⟨c.now, if isNumberVal (p.member "createdAt") = true then c.now else c.now + 1,
    { uuid := if isStringVal (p.member "id") = true then c.uuid else c.uuid + 1
      now := (if isNumberVal (p.member "createdAt") = true then c.now else c.now + 1) +
        (if isNumberVal (p.member "updatedAt") = true then 0 else 1) }, ?_, rfl⟩
  by_cases h1 : isStringVal (p.member "id") = true <;>
  by_cases h2 : isNumberVal (p.member "createdAt") = true <;>
  by_cases h3 : isNumberVal (p.member "updatedAt") = true <;>
  simp [h1, h2, h3]

/-- A record whose eight fields are already well-typed is returned as it is, without a call
to the id generator or to the clock. -/
theorem normalize_typed (h : Host) (c : Calls) (v1 v2 v3 v4 v5 v6 v7 v8 : JsVal)
    (h1 : isStringVal v1 = true) (h2 : isStringVal v2 = true) (h3 : v3.isArray = true)
    (h4 : isBoolVal v4 = true) (h5 : (isStringVal v5 || isNullVal v5) = true)
    (h6 : isNumberVal v6 = true) (h7 : isNumberVal v7 = true) (h8 : isNumberVal v8 = true) :
    normalize h c (JsVal.obj [("id", v1), ("text", v2), ("tags", v3), ("favorite", v4),
        ("folderId", v5), ("createdAt", v6), ("updatedAt", v7), ("usageCount", v8)]) =
      Except.ok ([("id", v1), ("text", v2), ("tags", v3), ("favorite", v4),
        ("folderId", v5), ("createdAt", v6), ("updatedAt", v7), ("usageCount", v8)], c) := by
  have hb : JsVal.bool v4.truthy = v4 := by
    cases v4 <;> simp [isBoolVal, JsVal.truthy] at h4 ⊢
  simp only [normalize, JsVal.member, Obj.get, lookup_cons, lookup_nil, normId_eq, normTime_eq,
    typeof_string_iff, typeof_number_iff, strictEq_null_eq]
  simp [h1, h2, h3, hb, h6, h7, h8]
  intro e1 e2
  rw [e1, e2] at h5
  cases h5

theorem keep_string (x : JsVal) (s : String) :
    isStringVal (if isStringVal x = true then x else JsVal.str s) = true := by
  by_cases h : isStringVal x = true
  · rw [if_pos h]
    exact h
  · rw [if_neg h]
    rfl

theorem keep_array (x : JsVal) :
    (if x.isArray = true then x else JsVal.arr []).isArray = true := by
  by_cases h : x.isArray = true
  · rw [if_pos h]
    exact h
  · rw [if_neg h]
    rfl

theorem keep_number (x : JsVal) (n : Int) :
    isNumberVal (if isNumberVal x = true then x else JsVal.num n) = true := by
  by_cases h : isNumberVal x = true
  · rw [if_pos h]
    exact h
  · rw [if_neg h]
    rfl

theorem keep_folder (x : JsVal) :
    (isStringVal (if (isStringVal x || isNullVal x) = true then x else JsVal.null) ||
      isNullVal (if (isStringVal x || isNullVal x) = true then x else JsVal.null)) = true := by
  by_cases h : (isStringVal x || isNullVal x) = true
  · rw [if_pos h]
    exact h
  · rw [if_neg h]
    rfl

theorem normalizedRecord_typed (p : JsVal) (u : String) (t1 t2 : Int) :
    isTypedRecord (normalizedRecord p u t1 t2) = true := by
  simp only [isTypedRecord, normalizedRecord, Obj.get, lookup_cons, lookup_nil]
  simp only [String.reduceEq, if_true, if_false, Option.getD_some, keep_string, keep_array,
    keep_number, keep_folder, isBoolVal, Bool.and_self]

theorem normalizeAll_present (h : Host) (raw : List JsVal) :
    ∀ c : Calls, (∀ p ∈ raw, isAbsent p = false) →
      ∃ (rs : List Obj) (c1 : Calls),
        normalizeAll h c raw = Except.ok (rs, c1) ∧ List.Forall₂ (NormalizedFrom h) raw rs := by
  induction raw with
  | nil =>
    intro c _
    exact ⟨[], c, rfl, List.Forall₂.nil⟩
  | cons p ps ih =>
    intro c hall
    obtain ⟨k1, k2, c1, hn, _⟩ :=
      normalize_present h c p (hall p (List.mem_cons_self p ps))
    obtain ⟨rs, c2, hrest, hrel⟩ := ih c1 (fun q hq => hall q (List.mem_cons_of_mem p hq))
    refine ⟨normalizedRecord p (h.generateUUID c.uuid) (h.now k1) (h.now k2) :: rs, c2, ?_,
      List.Forall₂.cons ⟨c.uuid, k1, k2, rfl⟩ hrel⟩
    simp only [normalizeAll, hn, hrest]

theorem normalizeAll_absent (h : Host) (c : Calls) (p : JsVal) (rest : List JsVal)
    (hp : isAbsent p = true) :
    normalizeAll h c (p :: rest) = Except.error JsError.typeError := by
  cases p <;> first | rfl | simp [isAbsent] at hp

/-- Supporting C8: for a loaded sequence without `null` and `undefined` elements, `init`
completes, the new collection corresponds to the loaded sequence position by position (same
length and order), each record being computed from the raw value by the field rules, and
nothing is saved, emitted or reported. -/
theorem init_normalizes (h : Host) (c : Calls) (w : World) (raw : List JsVal)
    (hraw : ∀ p ∈ raw, isAbsent p = false) :
    ∃ (w1 : World) (c1 : Calls), init h c w raw = Except.ok (w1, c1) ∧
      List.Forall₂ (NormalizedFrom h) raw w1.prompts ∧
      w1.prompts.length = raw.length ∧
      w1.saved = w.saved ∧ w1.emitted = w.emitted ∧ w1.errors = w.errors := by
  obtain ⟨rs, c1, hrs, hrel⟩ := normalizeAll_present h raw c hraw
  refine ⟨{ w with prompts := rs }, c1, ?_, hrel, hrel.length_eq.symm, rfl, rfl, rfl⟩
  simp only [init, hrs]

/-- Supporting C8: normalisation is idempotent. A record produced by the field rules is
returned unchanged when normalised again, with no call to the id generator or the clock. -/
theorem normalize_idempotent (h : Host) (c : Calls) (p : JsVal) (u : String) (t1 t2 : Int) :
    normalize h c (JsVal.obj (normalizedRecord p u t1 t2)) =
      Except.ok (normalizedRecord p u t1 t2, c) := by
  unfold normalizedRecord
  exact normalize_typed h c _ _ _ _ _ _ _ _ (keep_string _ _) (keep_string _ _) (keep_array _)
    rfl (keep_folder _) (keep_number _ _) (keep_number _ _) (keep_number _ _)

/-- C8, the failing input: when the loaded sequence is `[null]`, `init` throws a `TypeError`
(reading `p.id` of `null`) instead of yielding a collection of length one. -/
theorem init_throws_on_null (h : Host) (c : Calls) (w : World) :
    init h c w [JsVal.null] = Except.error JsError.typeError := by
  rfl

/-! ### C9: totality and the schema -/

/-- C9, amended: for loaded values other than `null` and `undefined`, however malformed,
`init` raises no exception and produces one record for each loaded value, at the same
position: the record the field rules give for that value, in which id is a string, text a
string, tags an array, favorite a boolean, folderId a string or `null`, and createdAt,
updatedAt and usageCount are numbers. -/
theorem init_total_on_present (h : Host) (c : Calls) (w : World) (raw : List JsVal)
    (hraw : ∀ p ∈ raw, isAbsent p = false) :
    ∃ (w1 : World) (c1 : Calls), init h c w raw = Except.ok (w1, c1) ∧
      w1.prompts.length = raw.length ∧
      List.Forall₂ (fun p r => NormalizedFrom h p r ∧ isTypedRecord r = true)
        raw w1.prompts := by
  obtain ⟨rs, c1, hrs, hrel⟩ := normalizeAll_present h raw c hraw
  refine ⟨{ w with prompts := rs }, c1, ?_, hrel.length_eq.symm, ?_⟩
  · simp only [init, hrs]
  · have hall : ∀ (l : List JsVal) (rs : List Obj), List.Forall₂ (NormalizedFrom h) l rs →
        List.Forall₂ (fun p r => NormalizedFrom h p r ∧ isTypedRecord r = true) l rs := by
      intro l rs hf
      induction hf with
      | nil => exact List.Forall₂.nil
      | cons hhead _ ih =>
        refine List.Forall₂.cons ⟨hhead, ?_⟩ ih
        obtain ⟨ku, k1, k2, hk⟩ := hhead
        rw [hk]
        exact normalizedRecord_typed _ _ _ _
    exact hall raw rs hrel

/-- C9 as stated fails on the code. The raw value `{id: "a", tags: ["t"], usageCount: -1}`
is normalised to a record whose usageCount is the negative number -1, and the raw value
`{id: "a", tags: [1], usageCount: 2}` to a record whose tags hold the number 1: neither
record satisfies the Record schema. -/
theorem init_keeps_negative_usageCount :
    init sampleHost noCalls emptyWorld [negRaw] =
      Except.ok ({ emptyWorld with prompts := [negRecord] }, { uuid := 0, now := 2 }) ∧
    Obj.get negRecord "usageCount" = JsVal.num (-1) ∧
    isRecord negRecord = false ∧
    init sampleHost noCalls emptyWorld [numTagRaw] =
      Except.ok ({ emptyWorld with prompts := [numTagRecord] }, { uuid := 0, now := 2 }) ∧
    Obj.get numTagRecord "tags" = JsVal.arr [JsVal.num 1] ∧
    isRecord numTagRecord = false :=
  ⟨rfl, rfl, rfl, rfl, rfl, rfl⟩

/-- The amended C9 at a concrete input: the malformed values `3`, `oddRaw` and `{}`. -/
theorem init_total_on_present_witness :
    ∃ (w1 : World) (c1 : Calls),
      init sampleHost noCalls emptyWorld [JsVal.num 3, oddRaw, JsVal.obj []] =
        Except.ok (w1, c1) ∧
      w1.prompts.length = [JsVal.num 3, oddRaw, JsVal.obj []].length ∧
      List.Forall₂ (fun p r => NormalizedFrom sampleHost p r ∧ isTypedRecord r = true)
        [JsVal.num 3, oddRaw, JsVal.obj []] w1.prompts :=
  init_total_on_present sampleHost noCalls emptyWorld [JsVal.num 3, oddRaw, JsVal.obj []]
    (by
      intro p hp
      simp only [List.mem_cons, List.mem_singleton, List.not_mem_nil, or_false] at hp
      rcases hp with e | e | e <;> rw [e] <;> rfl)

/-! ## C10: what `getFilteredPrompts` selects -/

theorem filterE_ok (f : Obj → Except JsError Bool) (g : Obj → Bool) (l : List Obj)
    (hfg : ∀ p ∈ l, f p = Except.ok (g p)) :
    filterE f l = Except.ok (l.filter g) := by
  induction l with
  | nil => rfl
  | cons p ps ih =>
    have hp := hfg p (List.mem_cons_self p ps)
    have hps := ih (fun q hq => hfg q (List.mem_cons_of_mem p hq))
    simp only [filterE, hp, hps, List.filter_cons]

theorem filter_true_eq (l : List Obj) (g : Obj → Bool) (hg : ∀ p, g p = true) :
    l.filter g = l :=
  List.filter_eq_self.mpr (fun p _ => hg p)

theorem byFolder_eq (filters : JsVal) (l : List Obj)
    (hf : isStringOrMissing (filters.member "folder") = true) :
    byFolder filters l = l.filter (folderOk filters) := by
  unfold byFolder
  cases hm : filters.member "folder" with
  | str f =>
    by_cases hempty : f = ""
    · rw [filter_true_eq l (folderOk filters) (fun p => by simp [folderOk, hm, hempty])]
      simp [JsVal.truthy, hempty]
    · have htruthy : (JsVal.str f).truthy = true := by simp [JsVal.truthy, hempty]
      rw [if_pos htruthy]
      apply List.filter_congr
      intro p _
      simp only [folderOk, hm]
      cases Obj.get p "folderId" <;> simp [JsVal.strictEq, hempty]
  | undefined =>
    rw [filter_true_eq l (folderOk filters) (fun p => by simp [folderOk, hm])]
    simp [JsVal.truthy]
  | _ => simp [hm, isStringOrMissing] at hf

theorem byText_eq (toLowerCase : String → String) (filters : JsVal) (l : List Obj)
    (hf : isStringOrMissing (filters.member "text") = true)
    (hl : ∀ p ∈ l, isStringOrAbsent (Obj.get p "text") = true) :
    byText toLowerCase filters l = Except.ok (l.filter (textOk toLowerCase filters)) := by
  unfold byText
  cases hm : filters.member "text" with
  | str t =>
    by_cases hempty : t = ""
    · rw [filter_true_eq l (textOk toLowerCase filters)
        (fun p => by simp [textOk, hm, hempty])]
      simp [JsVal.truthy, hempty]
    · have htruthy : (JsVal.str t).truthy = true := by simp [JsVal.truthy, hempty]
      rw [if_pos htruthy]
      simp only [lowerOf]
      apply filterE_ok
      intro p hp
      have hs := hl p hp
      simp only [textOk, hm, textMatches]
      cases hget : Obj.get p "text" with
      | str s =>
        by_cases hse : s = ""
        · simp [JsVal.truthy, hse, hempty]
        · have ht : (t == "") = false := by simpa using hempty
          have hs2 : (s == "") = false := by simpa using hse
          simp [JsVal.truthy, hse, lowerOf, bne, ht, hs2]
      | undefined => simp [JsVal.truthy, hempty]
      | null => simp [JsVal.truthy, hempty]
      | _ => simp [hget, isStringOrAbsent] at hs
  | undefined =>
    rw [filter_true_eq l (textOk toLowerCase filters) (fun p => by simp [textOk, hm])]
    simp [JsVal.truthy]
  | _ => simp [hm, isStringOrMissing] at hf

theorem byFavorite_eq (filters : JsVal) (l : List Obj)
    (hf : isBoolOrMissing (filters.member "favorite") = true)
    (hl : ∀ p ∈ l, isBoolOrAbsent (Obj.get p "favorite") = true) :
    byFavorite filters l = l.filter (favoriteOk filters) := by
  unfold byFavorite
  cases hm : filters.member "favorite" with
  | bool b =>
    cases b with
    | false =>
      rw [filter_true_eq l (favoriteOk filters) (fun p => by simp [favoriteOk, hm])]
      simp [JsVal.truthy]
    | true =>
      have htruthy : (JsVal.bool true).truthy = true := rfl
      rw [if_pos htruthy]
      apply List.filter_congr
      intro p hp
      have hb := hl p hp
      simp only [favoriteOk, hm]
      cases hget : Obj.get p "favorite" with
      | bool b => simp [JsVal.truthy]
      | undefined => simp [JsVal.truthy]
      | null => simp [JsVal.truthy]
      | _ => simp [hget, isBoolOrAbsent] at hb
  | undefined =>
    rw [filter_true_eq l (favoriteOk filters) (fun p => by simp [favoriteOk, hm])]
    simp [JsVal.truthy]
  | _ => simp [hm, isBoolOrMissing] at hf

theorem byTag_eq (filters : JsVal) (l : List Obj)
    (hf : isStringOrMissing (filters.member "tag") = true) :
    byTag filters l = l.filter (tagOk filters) := by
  unfold byTag
  cases hm : filters.member "tag" with
  | str t =>
    by_cases hempty : t = ""
    · rw [filter_true_eq l (tagOk filters) (fun p => by simp [tagOk, hm, hempty])]
      simp [JsVal.truthy, hempty]
    · have htruthy : (JsVal.str t).truthy = true := by simp [JsVal.truthy, hempty]
      rw [if_pos htruthy]
      apply List.filter_congr
      intro p _
      simp only [tagOk, tagMatches, hm]
      cases Obj.get p "tags" with
      | arr items =>
        have hcongr : (fun x => JsVal.strictEq x (JsVal.str t)) =
            (fun x => match x with
              | JsVal.str s => s == t
              | _ => false) := by
          funext x
          cases x <;> simp [JsVal.strictEq]
        simp [hcongr, hempty]
      | _ => simp [hempty]
  | undefined =>
    rw [filter_true_eq l (tagOk filters) (fun p => by simp [tagOk, hm])]
    simp [JsVal.truthy]
  | _ => simp [hm, isStringOrMissing] at hf

theorem sortDesc_perm (field : String) (l : List Obj)
    (hl : ∀ p ∈ l, (keyOrZero (Obj.get p field)).isSome = true) :
    ∃ out, sortDesc field l = Except.ok out ∧ out.Perm l := by
  have hall : l.all (fun p => (keyOrZero (Obj.get p field)).isSome) = true := by
    rw [List.all_eq_true]
    exact hl
  refine ⟨l.insertionSort (fun a b => compareDesc field a b ≤ 0), ?_, List.perm_insertionSort _ l⟩
  simp only [sortDesc, hall, Bool.or_true, if_true]

theorem isStringOrAbsent_of_isStringVal (v : JsVal) (h : isStringVal v = true) :
    isStringOrAbsent v = true := by
  cases v <;> first | rfl | simp [isStringVal] at h

theorem isBoolOrAbsent_of_isBoolVal (v : JsVal) (h : isBoolVal v = true) :
    isBoolOrAbsent v = true := by
  cases v <;> first | rfl | simp [isBoolVal] at h

theorem keyOrZero_isSome_of_absent (v : JsVal) (hv : isNumberOrAbsent v = true) :
    (keyOrZero v).isSome = true := by
  cases v <;> simp [isNumberOrAbsent] at hv <;> simp [keyOrZero]

theorem hasFilterFields_fields (p : Obj) (hp : hasFilterFields p = true) :
    isStringOrAbsent (Obj.get p "text") = true ∧ isBoolOrAbsent (Obj.get p "favorite") = true ∧
    isNumberOrAbsent (Obj.get p "createdAt") = true ∧
    isNumberOrAbsent (Obj.get p "updatedAt") = true ∧
    isNumberOrAbsent (Obj.get p "usageCount") = true := by
  simp only [hasFilterFields, Bool.and_eq_true] at hp
  obtain ⟨⟨⟨⟨h1, h2⟩, h3⟩, h4⟩, h5⟩ := hp
  exact ⟨h1, h2, h3, h4, h5⟩

theorem orderField_cases (filters : JsVal) :
    orderField filters = "usageCount" ∨ orderField filters = "updatedAt" ∨
      orderField filters = "createdAt" := by
  unfold orderField
  split_ifs <;> simp

theorem isTypedRecord_fields (p : Obj) (hp : isTypedRecord p = true) :
    isStringVal (Obj.get p "text") = true ∧ isBoolVal (Obj.get p "favorite") = true ∧
    isNumberVal (Obj.get p "createdAt") = true ∧ isNumberVal (Obj.get p "updatedAt") = true ∧
    isNumberVal (Obj.get p "usageCount") = true := by
  simp only [isTypedRecord, Bool.and_eq_true] at hp
  obtain ⟨⟨⟨⟨⟨⟨⟨_, h2⟩, _⟩, h4⟩, _⟩, h6⟩, h7⟩, h8⟩ := hp
  exact ⟨h2, h4, h6, h7, h8⟩

/-- A record of the Record schema has the types `init` establishes. -/
theorem isTypedRecord_of_isRecord (p : Obj) (hp : isRecord p = true) :
    isTypedRecord p = true := by
  simp only [isRecord, Bool.and_eq_true] at hp
  obtain ⟨⟨⟨⟨⟨⟨⟨h1, h2⟩, h3⟩, h4⟩, h5⟩, h6⟩, h7⟩, h8⟩ := hp
  have h3a : (Obj.get p "tags").isArray = true := by
    cases hget : Obj.get p "tags" <;> simp [hget] at h3
    rfl
  have h8a : isNumberVal (Obj.get p "usageCount") = true := by
    cases hget : Obj.get p "usageCount" <;> simp [hget] at h8
    rfl
  simp only [isTypedRecord, Bool.and_eq_true]
  exact ⟨⟨⟨⟨⟨⟨⟨h1, h2⟩, h3a⟩, h4⟩, h5⟩, h6⟩, h7⟩, h8a⟩

theorem filterAndSort_selects (toLowerCase : String → String) (prompts : List Obj)
    (filters : JsVal) (hrec : ∀ p ∈ prompts, hasFilterFields p = true)
    (h1 : isStringOrMissing (filters.member "folder") = true)
    (h2 : isStringOrMissing (filters.member "text") = true)
    (h3 : isBoolOrMissing (filters.member "favorite") = true)
    (h4 : isStringOrMissing (filters.member "tag") = true) :
    ∃ out, filterAndSort toLowerCase prompts filters = Except.ok out ∧
      out.Perm (prompts.filter (satisfiesCriteria toLowerCase filters)) := by
  have hsel : byTag filters (byFavorite filters
      ((byFolder filters prompts).filter (textOk toLowerCase filters))) =
      prompts.filter (satisfiesCriteria toLowerCase filters) := by
    rw [byTag_eq filters _ h4, byFavorite_eq filters _ h3, byFolder_eq filters _ h1,
      List.filter_filter, List.filter_filter, List.filter_filter]
    · apply List.filter_congr
      intro p _
      simp only [satisfiesCriteria]
      cases folderOk filters p <;> cases textOk toLowerCase filters p <;>
        cases favoriteOk filters p <;> cases tagOk filters p <;> rfl
    · intro p hp
      rw [byFolder_eq filters _ h1] at hp
      exact (hasFilterFields_fields p
        (hrec p (List.mem_filter.mp (List.mem_filter.mp hp).1).1)).2.1
  have htext : byText toLowerCase filters (byFolder filters prompts) =
      Except.ok ((byFolder filters prompts).filter (textOk toLowerCase filters)) := by
    apply byText_eq toLowerCase filters _ h2
    intro p hp
    rw [byFolder_eq filters _ h1] at hp
    exact (hasFilterFields_fields p (hrec p (List.mem_filter.mp hp).1)).1
  have hkeys : ∀ p ∈ prompts.filter (satisfiesCriteria toLowerCase filters),
      (keyOrZero (Obj.get p (orderField filters))).isSome = true := by
    intro p hp
    obtain ⟨_, _, h6, h7, h8⟩ := hasFilterFields_fields p (hrec p (List.mem_filter.mp hp).1)
    rcases orderField_cases filters with e | e | e <;> rw [e] <;>
      apply keyOrZero_isSome_of_absent <;> assumption
  obtain ⟨out, hout, hperm⟩ := sortDesc_perm (orderField filters) _ hkeys
  refine ⟨out, ?_, hperm⟩
  simp only [filterAndSort, htext, hsel, hout]

theorem satisfiesCriteria_of_noCriteria (toLowerCase : String → String) (filters : JsVal)
    (hnone : noCriteria filters = true) (p : Obj) :
    satisfiesCriteria toLowerCase filters p = true := by
  simp only [noCriteria, Bool.and_eq_true, Bool.not_eq_true'] at hnone
  obtain ⟨⟨⟨hf, ht⟩, hfav⟩, htag⟩ := hnone
  have e1 : folderOk filters p = true := by
    unfold folderOk
    cases hm : filters.member "folder" <;> simp [hm, suppliedString] at hf ⊢
    simp [hf]
  have e2 : textOk toLowerCase filters p = true := by
    unfold textOk
    cases hm : filters.member "text" <;> simp [hm, suppliedString] at ht ⊢
    simp [ht]
  have e3 : favoriteOk filters p = true := by
    unfold favoriteOk
    cases hm : filters.member "favorite" <;> simp [hm] at hfav ⊢
    simp [hfav]
  have e4 : tagOk filters p = true := by
    unfold tagOk
    cases hm : filters.member "tag" <;> simp [hm, suppliedString] at htag ⊢
    simp [htag]
  simp [satisfiesCriteria, e1, e2, e3, e4]

/-- Where no criterion is the empty string, the criteria as stated and the criteria with the
amendment select the same records. -/
theorem satisfiesCriteria_eq_stated (toLowerCase : String → String) (filters : JsVal) (p : Obj)
    (h1 : filters.member "folder" ≠ JsVal.str "") (h2 : filters.member "text" ≠ JsVal.str "")
    (h3 : filters.member "tag" ≠ JsVal.str "") :
    satisfiesCriteria toLowerCase filters p = satisfiesStatedCriteria toLowerCase filters p := by
  have e1 : folderOk filters p = folderStated filters p := by
    unfold folderOk folderStated
    cases hm : filters.member "folder" with
    | str f =>
      have hf : (f == "") = false := by
        have : f ≠ "" := fun e => h1 (by rw [hm, e])
        simpa using this
      simp [hf]
    | _ => rfl
  have e2 : textOk toLowerCase filters p = textStated toLowerCase filters p := by
    unfold textOk textStated
    cases hm : filters.member "text" with
    | str f =>
      have hf : (f == "") = false := by
        have : f ≠ "" := fun e => h2 (by rw [hm, e])
        simpa using this
      simp [hf]
    | _ => rfl
  have e4 : tagOk filters p = tagStated filters p := by
    unfold tagOk tagStated
    cases hm : filters.member "tag" with
    | str f =>
      have hf : (f == "") = false := by
        have : f ≠ "" := fun e => h3 (by rw [hm, e])
        simpa using this
      simp [hf]
    | _ => rfl
  simp only [satisfiesCriteria, satisfiesStatedCriteria, e1, e2, e4, favoriteOk, favoriteStated]

/-- C10, amended: for every sequence of records whose text is a string, whose favorite is a
boolean and whose createdAt, updatedAt and usageCount are numbers, each of them possibly
absent, every well-typed criteria and every case mapping, `getFilteredPrompts` returns a
result that contains, with the same multiplicity, exactly the input records that satisfy at
once all criteria that are supplied and not empty (folderId equal to the folder criterion;
text non-empty and containing the text criterion, both in lower case; favorite true when the
favorite criterion is true; tags containing the tag criterion). A criterion that is missing
or empty excludes nothing: with no such criterion the result is a permutation of the
input. -/
theorem getFilteredPrompts_selects (toLowerCase : String → String) (prompts : List Obj)
    (filters : JsVal) (hrec : ∀ p ∈ prompts, hasFilterFields p = true)
    (hcrit : wellTypedCriteria filters = true) :
    ∃ out, getFilteredPrompts toLowerCase prompts filters = Except.ok out ∧
      out.Perm (prompts.filter (satisfiesCriteria toLowerCase filters)) ∧
      (noCriteria filters = true → out.Perm prompts) := by
  simp only [wellTypedCriteria, Bool.and_eq_true] at hcrit
  obtain ⟨⟨⟨⟨h0, h1⟩, h2⟩, h3⟩, h4⟩ := hcrit
  have hmain : ∃ out, getFilteredPrompts toLowerCase prompts filters = Except.ok out ∧
      out.Perm (prompts.filter (satisfiesCriteria toLowerCase filters)) := by
    cases filters with
    | undefined =>
      exact filterAndSort_selects toLowerCase prompts (JsVal.obj []) hrec rfl rfl rfl rfl
    | obj props =>
      exact filterAndSort_selects toLowerCase prompts (JsVal.obj props) hrec h1 h2 h3 h4
    | _ => simp at h0
  obtain ⟨out, hout, hperm⟩ := hmain
  refine ⟨out, hout, hperm, ?_⟩
  intro hnone
  rw [filter_true_eq prompts _ (satisfiesCriteria_of_noCriteria toLowerCase filters hnone)]
    at hperm
  exact hperm

/-- C10 as stated fails on the code. The criteria `{folder: ""}` supply a folder criterion,
and neither record of the specification's filter example has the folderId `""`: as stated
the result holds no record. The code skips a criterion that is empty and returns both
records. -/
theorem getFilteredPrompts_skips_empty_criterion :
    criteriaEmptyFolder.member "folder" = JsVal.str "" ∧
    [specHello, specWorld].map (fun p => Obj.get p "folderId") =
      [JsVal.str "f1", JsVal.str "f1"] ∧
    [specHello, specWorld].filter (satisfiesStatedCriteria asciiLower criteriaEmptyFolder) =
      [] ∧
    getFilteredPrompts asciiLower [specHello, specWorld] criteriaEmptyFolder =
      Except.ok [specHello, specWorld] :=
  ⟨rfl, rfl, rfl, rfl⟩

/-- The amended C10 on the specification's filter example: of its two records, the criteria
`{folder: "f1", favorite: true}` select the first. -/
theorem getFilteredPrompts_selects_witness :
    [specHello, specWorld].filter (satisfiesCriteria asciiLower criteriaF1Fav) = [specHello] ∧
    ∃ out, getFilteredPrompts asciiLower [specHello, specWorld] criteriaF1Fav = Except.ok out ∧
      out.Perm ([specHello, specWorld].filter (satisfiesCriteria asciiLower criteriaF1Fav)) ∧
      (noCriteria criteriaF1Fav = true → out.Perm [specHello, specWorld]) :=
  ⟨rfl, getFilteredPrompts_selects asciiLower [specHello, specWorld] criteriaF1Fav
    (by
      intro p hp
      simp only [List.mem_cons, List.mem_singleton, List.not_mem_nil, or_false] at hp
      rcases hp with e | e <;> rw [e] <;> rfl)
    rfl⟩

/-! ## C11 and C20: the order of the result -/

theorem orderField_eq_selectedField (filters : JsVal) :
    orderField filters = selectedField filters := by
  unfold orderField selectedField
  cases filters.member "order" with
  | str s =>
    by_cases h1 : s = "usage"
    · simp [JsVal.strictEq, h1]
    · by_cases h2 : s = "updatedAt"
      · simp [JsVal.strictEq, h2]
      · simp [JsVal.strictEq, h1, h2]
  | _ => simp [JsVal.strictEq]

theorem selectedField_cases (filters : JsVal) :
    selectedField filters = "usageCount" ∨ selectedField filters = "updatedAt" ∨
      selectedField filters = "createdAt" := by
  rw [← orderField_eq_selectedField]
  exact orderField_cases filters

theorem hasQueryFields_fields (p : Obj) (hp : hasQueryFields p = true) :
    isStringVal (Obj.get p "text") = true ∧ isBoolVal (Obj.get p "favorite") = true ∧
    isNumberOrMissing (Obj.get p "createdAt") = true ∧
    isNumberOrMissing (Obj.get p "updatedAt") = true ∧
    isNumberOrMissing (Obj.get p "usageCount") = true := by
  simp only [hasQueryFields, Bool.and_eq_true] at hp
  obtain ⟨⟨⟨⟨h1, h2⟩, h3⟩, h4⟩, h5⟩ := hp
  exact ⟨h1, h2, h3, h4, h5⟩

/-- A record typed as `init` leaves it has well-typed query fields. -/
theorem hasQueryFields_of_isTypedRecord (p : Obj) (hp : isTypedRecord p = true) :
    hasQueryFields p = true := by
  obtain ⟨h1, h2, h3, h4, h5⟩ := isTypedRecord_fields p hp
  have hnum : ∀ v : JsVal, isNumberVal v = true → isNumberOrMissing v = true := by
    intro v hv
    cases v <;> simp [isNumberVal] at hv
    rfl
  simp only [hasQueryFields, Bool.and_eq_true]
  exact ⟨⟨⟨⟨h1, h2⟩, hnum _ h3⟩, hnum _ h4⟩, hnum _ h5⟩

theorem hasQueryFields_key (p : Obj) (hp : hasQueryFields p = true) (filters : JsVal) :
    isNumberOrMissing (Obj.get p (selectedField filters)) = true := by
  obtain ⟨_, _, h3, h4, h5⟩ := hasQueryFields_fields p hp
  rcases selectedField_cases filters with e | e | e <;> rw [e] <;> assumption

theorem comparedKey_eq_sortKey (field : String) (p : Obj)
    (hp : isNumberOrMissing (Obj.get p field) = true) :
    comparedKey field p = sortKey field p := by
  unfold comparedKey sortKey
  cases hget : Obj.get p field <;> simp [hget, isNumberOrMissing] at hp <;> simp [keyOrZero]

theorem keyOrZero_isSome (v : JsVal) (hv : isNumberOrMissing v = true) :
    (keyOrZero v).isSome = true := by
  cases v <;> simp [isNumberOrMissing] at hv <;> simp [keyOrZero]

/-- What `getFilteredPrompts` returns on well-typed input: the records that satisfy the
criteria, stably sorted by the comparator of the selected field. -/
theorem getFilteredPrompts_eq (toLowerCase : String → String) (prompts : List Obj)
    (filters : JsVal) (hrec : ∀ p ∈ prompts, hasQueryFields p = true)
    (hcrit : wellTypedCriteria filters = true) :
    getFilteredPrompts toLowerCase prompts filters =
      Except.ok ((prompts.filter (satisfiesCriteria toLowerCase filters)).insertionSort
        (fun a b => compareDesc (selectedField filters) a b ≤ 0)) := by
  simp only [wellTypedCriteria, Bool.and_eq_true] at hcrit
  obtain ⟨⟨⟨⟨h0, h1⟩, h2⟩, h3⟩, h4⟩ := hcrit
  have hbody : ∀ f : JsVal, isStringOrMissing (f.member "folder") = true →
      isStringOrMissing (f.member "text") = true → isBoolOrMissing (f.member "favorite") = true →
      isStringOrMissing (f.member "tag") = true →
      filterAndSort toLowerCase prompts f =
        Except.ok ((prompts.filter (satisfiesCriteria toLowerCase f)).insertionSort
          (fun a b => compareDesc (selectedField f) a b ≤ 0)) := by
    intro f g1 g2 g3 g4
    have htext : byText toLowerCase f (byFolder f prompts) =
        Except.ok ((byFolder f prompts).filter (textOk toLowerCase f)) := by
      apply byText_eq toLowerCase f _ g2
      intro p hp
      rw [byFolder_eq f _ g1] at hp
      exact isStringOrAbsent_of_isStringVal _
        (hasQueryFields_fields p (hrec p (List.mem_filter.mp hp).1)).1
    have hsel : byTag f (byFavorite f ((byFolder f prompts).filter (textOk toLowerCase f))) =
        prompts.filter (satisfiesCriteria toLowerCase f) := by
      rw [byTag_eq f _ g4, byFavorite_eq f _ g3, byFolder_eq f _ g1,
        List.filter_filter, List.filter_filter, List.filter_filter]
      · apply List.filter_congr
        intro p _
        simp only [satisfiesCriteria]
        cases folderOk f p <;> cases textOk toLowerCase f p <;>
          cases favoriteOk f p <;> cases tagOk f p <;> rfl
      · intro p hp
        rw [byFolder_eq f _ g1] at hp
        exact isBoolOrAbsent_of_isBoolVal _ (hasQueryFields_fields p
          (hrec p (List.mem_filter.mp (List.mem_filter.mp hp).1).1)).2.1
    have hall : (prompts.filter (satisfiesCriteria toLowerCase f)).all
        (fun p => (keyOrZero (Obj.get p (selectedField f))).isSome) = true := by
      rw [List.all_eq_true]
      intro p hp
      exact keyOrZero_isSome _ (hasQueryFields_key p (hrec p (List.mem_filter.mp hp).1) f)
    simp only [filterAndSort, htext, hsel, sortDesc, orderField_eq_selectedField, hall,
      Bool.or_true, if_true]
  cases filters with
  | undefined => exact hbody (JsVal.obj []) rfl rfl rfl rfl
  | obj props => exact hbody (JsVal.obj props) h1 h2 h3 h4
  | _ => simp at h0

theorem compareDesc_le_iff (field : String) (a b : Obj) :
    compareDesc field a b ≤ 0 ↔ comparedKey field b ≤ comparedKey field a := by
  unfold compareDesc comparedKey
  omega

theorem insertionSort_sorted (field : String) (l : List Obj) :
    (l.insertionSort (fun a b => compareDesc field a b ≤ 0)).Pairwise
      (fun a b => comparedKey field b ≤ comparedKey field a) := by
  haveI : IsTotal Obj (fun a b => compareDesc field a b ≤ 0) :=
    ⟨fun a b => by
      simp only [compareDesc_le_iff]
      omega⟩
  haveI : IsTrans Obj (fun a b => compareDesc field a b ≤ 0) :=
    ⟨fun a b c hab hbc => by
      simp only [compareDesc_le_iff] at hab hbc ⊢
      omega⟩
  have hs := List.sorted_insertionSort (fun a b => compareDesc field a b ≤ 0) l
  exact List.Pairwise.imp (fun h => (compareDesc_le_iff field _ _).mp h) hs

theorem filter_orderedInsert (field : String) (v : Int) (a : Obj) (s : List Obj) :
    (s.orderedInsert (fun x y => compareDesc field x y ≤ 0) a).filter
        (fun p => comparedKey field p == v) =
      (if comparedKey field a == v then [a] else []) ++
        s.filter (fun p => comparedKey field p == v) := by
  induction s with
  | nil => simp [List.filter_cons]
  | cons b s ih =>
    by_cases hab : compareDesc field a b ≤ 0
    · simp only [List.orderedInsert, hab, if_true]
      rw [List.filter_cons]
      by_cases hav : (comparedKey field a == v) = true <;> simp [hav]
    · have hne : comparedKey field a ≠ comparedKey field b := by
        intro e
        apply hab
        rw [compareDesc_le_iff, e]
      simp only [List.orderedInsert, hab, if_false, List.filter_cons, ih]
      by_cases hav : comparedKey field a = v
      · have hbv : ¬ comparedKey field b = v := fun e => hne (hav.trans e.symm)
        simp [hav, hbv]
      · simp [hav]

/-- Stable insertion keeps, for each key value, the records with that key in their order. -/
theorem filter_insertionSort (field : String) (v : Int) (l : List Obj) :
    (l.insertionSort (fun x y => compareDesc field x y ≤ 0)).filter
        (fun p => comparedKey field p == v) =
      l.filter (fun p => comparedKey field p == v) := by
  induction l with
  | nil => rfl
  | cons a l ih =>
    rw [List.insertionSort, filter_orderedInsert, ih, List.filter_cons]
    by_cases hav : (comparedKey field a == v) = true <;> simp [hav]

/-- C11: for every sequence of records with well-typed query fields and every well-typed
criteria, the result of `getFilteredPrompts` is in non-increasing order of the selected key,
a missing key counting as 0: usageCount when the order criterion is `"usage"`, updatedAt
when it is `"updatedAt"`, createdAt when it is absent or has any other value. -/
theorem getFilteredPrompts_sorted (toLowerCase : String → String) (prompts : List Obj)
    (filters : JsVal) (hrec : ∀ p ∈ prompts, hasQueryFields p = true)
    (hcrit : wellTypedCriteria filters = true) :
    ∃ out, getFilteredPrompts toLowerCase prompts filters = Except.ok out ∧
      out.Pairwise (fun a b =>
        sortKey (selectedField filters) b ≤ sortKey (selectedField filters) a) := by
  refine ⟨_, getFilteredPrompts_eq toLowerCase prompts filters hrec hcrit, ?_⟩
  have hmem : ∀ p ∈ (prompts.filter (satisfiesCriteria toLowerCase filters)).insertionSort
      (fun a b => compareDesc (selectedField filters) a b ≤ 0),
      comparedKey (selectedField filters) p = sortKey (selectedField filters) p := by
    intro p hp
    have hp1 := (List.perm_insertionSort _ _).subset hp
    exact comparedKey_eq_sortKey _ p
      (hasQueryFields_key p (hrec p (List.mem_filter.mp hp1).1) filters)
  refine List.Pairwise.imp_of_mem ?_ (insertionSort_sorted (selectedField filters) _)
  intro a b ha hb hab
  rw [← hmem a ha, ← hmem b hb]
  exact hab

/-- C11 at a concrete input: `recHello` and `recWorld` with no criteria, ordered by
createdAt. -/
theorem getFilteredPrompts_sorted_witness :
    ∃ out, getFilteredPrompts asciiLower [recHello, recWorld] JsVal.undefined = Except.ok out ∧
      out.Pairwise (fun a b =>
        sortKey (selectedField JsVal.undefined) b ≤ sortKey (selectedField JsVal.undefined) a) :=
  getFilteredPrompts_sorted asciiLower [recHello, recWorld] JsVal.undefined
    (by
      intro p hp
      simp only [List.mem_cons, List.mem_singleton, List.not_mem_nil, or_false] at hp
      rcases hp with e | e <;> rw [e] <;> rfl)
    rfl

/-- C20: the sort of `getFilteredPrompts` is stable. For every sequence of records with
well-typed query fields, every well-typed criteria and every key value `v`, the records of
the result whose sort key is `v` are the input records that satisfy the criteria and have
the key `v`, in the order of the input: records with equal keys keep their relative order. -/
theorem getFilteredPrompts_stable (toLowerCase : String → String) (prompts : List Obj)
    (filters : JsVal) (hrec : ∀ p ∈ prompts, hasQueryFields p = true)
    (hcrit : wellTypedCriteria filters = true) :
    ∃ out, getFilteredPrompts toLowerCase prompts filters = Except.ok out ∧
      ∀ v : Int, out.filter (fun p => sortKey (selectedField filters) p == v) =
        (prompts.filter (satisfiesCriteria toLowerCase filters)).filter
          (fun p => sortKey (selectedField filters) p == v) := by
  refine ⟨_, getFilteredPrompts_eq toLowerCase prompts filters hrec hcrit, ?_⟩
  intro v
  have hkey : ∀ p ∈ prompts.filter (satisfiesCriteria toLowerCase filters),
      (sortKey (selectedField filters) p == v) =
        (comparedKey (selectedField filters) p == v) := by
    intro p hp
    rw [comparedKey_eq_sortKey _ p
      (hasQueryFields_key p (hrec p (List.mem_filter.mp hp).1) filters)]
  have hkey2 : ∀ p ∈ (prompts.filter (satisfiesCriteria toLowerCase filters)).insertionSort
      (fun a b => compareDesc (selectedField filters) a b ≤ 0),
      (sortKey (selectedField filters) p == v) =
        (comparedKey (selectedField filters) p == v) := by
    intro p hp
    exact hkey p ((List.perm_insertionSort _ _).subset hp)
  rw [List.filter_congr hkey, List.filter_congr hkey2]
  exact filter_insertionSort (selectedField filters) v _

/-- C20 at a concrete input: `recHello` and `recWorld` both have usageCount 0 and keep
their input order under `{order: "usage"}`. -/
theorem getFilteredPrompts_stable_witness :
    ∃ out, getFilteredPrompts asciiLower [recHello, recWorld] criteriaByUsage = Except.ok out ∧
      ∀ v : Int, out.filter (fun p => sortKey (selectedField criteriaByUsage) p == v) =
        ([recHello, recWorld].filter (satisfiesCriteria asciiLower criteriaByUsage)).filter
          (fun p => sortKey (selectedField criteriaByUsage) p == v) :=
  getFilteredPrompts_stable asciiLower [recHello, recWorld] criteriaByUsage
    (by
      intro p hp
      simp only [List.mem_cons, List.mem_singleton, List.not_mem_nil, or_false] at hp
      rcases hp with e | e <;> rw [e] <;> rfl)
    rfl

/-! ## Shapes of the successful calls -/

/-- A successful `editPrompt` found the first record with the id at some position and
produced the world `updated`. -/
theorem editPrompt_success_eq (w : World) (now : Int) (id data : JsVal)
    (hok : (editPrompt w now id data).1 = true) :
    ∃ (idx : Nat) (hlt : idx < w.prompts.length),
      w.prompts.findIdx? (hasId id) = some idx ∧
      hasId id (w.prompts.get ⟨idx, hlt⟩) = true ∧
      w.prompts.getD idx [] = w.prompts.get ⟨idx, hlt⟩ ∧
      editPrompt w now id data = (true, updated w now id data idx) := by
  rw [editPrompt_eq] at hok ⊢
  cases h : w.prompts.findIdx? (hasId id) with
  | none => simp [h] at hok
  | some idx =>
    simp only [h] at hok ⊢
    obtain ⟨hlt, hp, _⟩ := List.findIdx?_eq_some_iff_getElem.mp h
    have hgetD : w.prompts.getD idx [] = w.prompts.get ⟨idx, hlt⟩ := by
      simp [List.getD_eq_getElem?_getD, List.getElem?_eq_getElem hlt]
    by_cases h1 : patchTextBlank data = true
    · simp [h1] at hok
    · by_cases h2 : patchLacksFolder data = true
      · simp [h1, h2] at hok
      · exact ⟨idx, hlt, rfl, hp, hgetD, by simp [h1, h2]⟩

theorem findIdx?_getD (l : List Obj) (id : JsVal) (idx : Nat)
    (h : l.findIdx? (hasId id) = some idx) :
    ∃ hlt : idx < l.length, l.getD idx [] = l.get ⟨idx, hlt⟩ ∧
      hasId id (l.get ⟨idx, hlt⟩) = true := by
  obtain ⟨hlt, hp, _⟩ := List.findIdx?_eq_some_iff_getElem.mp h
  exact ⟨hlt, by simp [List.getD_eq_getElem?_getD, List.getElem?_eq_getElem hlt], hp⟩

/-- Replacing a record by one with the same value under `f` leaves the `f`-values of the
collection unchanged. -/
theorem map_set_same {β : Type} (f : Obj → β) (l : List Obj) (idx : Nat) (m : Obj)
    (hlt : idx < l.length) (hm : f m = f (l.get ⟨idx, hlt⟩)) :
    (l.set idx m).map f = l.map f := by
  induction l generalizing idx with
  | nil => simp at hlt
  | cons a l ih =>
    cases idx with
    | zero =>
      simp only [List.set_cons_zero, List.map_cons]
      rw [hm]
      rfl
    | succ n =>
      simp only [List.set_cons_succ, List.map_cons]
      rw [ih n (Nat.lt_of_succ_lt_succ hlt) hm]

theorem get_set_ne (o : Obj) (k k' : String) (v : JsVal) (hk : k ≠ k') :
    Obj.get (Obj.set o k' v) k = Obj.get o k := by
  simp [Obj.get, lookup_set, hk]

theorem get_set_self (o : Obj) (k : String) (v : JsVal) :
    Obj.get (Obj.set o k v) k = v := by
  simp [Obj.get, lookup_set]

theorem get_mergePatch (k : String) (old : Obj) (data : JsVal) (now : Int)
    (hk : k ≠ "updatedAt") (hnone : patchField data k = none) :
    Obj.get (mergePatch old data now) k = Obj.get old k := by
  simp [Obj.get, lookup_mergePatch, hk, hnone]

theorem toggleFavorite_absent (w : World) (id : JsVal)
    (h : w.prompts.findIdx? (hasId id) = none) : toggleFavorite w id = w := by
  simp only [toggleFavorite, h]

theorem toggleFavorite_found (w : World) (id : JsVal) (idx : Nat)
    (h : w.prompts.findIdx? (hasId id) = some idx) : toggleFavorite w id = toggled w id idx := by
  simp only [toggleFavorite, h]
  rfl

theorem incrementUsage_absent (numberToString : Int → String) (w : World) (id : JsVal)
    (h : w.prompts.findIdx? (hasId id) = none) :
    incrementUsage numberToString w id = Except.ok w := by
  simp only [incrementUsage, h]

theorem incrementUsage_found (numberToString : Int → String) (w : World) (id : JsVal)
    (idx : Nat) (h : w.prompts.findIdx? (hasId id) = some idx) :
    incrementUsage numberToString w id =
      match orZeroPlusOne numberToString (Obj.get (w.prompts.getD idx []) "usageCount") with
      | Except.error e => Except.error e
      | Except.ok count => Except.ok (incremented w id idx count) := by
  simp only [incrementUsage, h]
  rfl

/-- The store after a call `incrementUsage(id)` is the store before it, or the store
`incremented` for the position of the first record with the id and some new count. -/
theorem afterIncrementUsage_cases (numberToString : Int → String) (w : World) (id : JsVal) :
    afterIncrementUsage numberToString w id = w ∨
    ∃ (idx : Nat) (count : JsVal), w.prompts.findIdx? (hasId id) = some idx ∧
      incrementUsage numberToString w id = Except.ok (incremented w id idx count) ∧
      afterIncrementUsage numberToString w id = incremented w id idx count := by
  cases hf : w.prompts.findIdx? (hasId id) with
  | none =>
    left
    simp only [afterIncrementUsage, incrementUsage_absent numberToString w id hf]
  | some idx =>
    cases hc : orZeroPlusOne numberToString (Obj.get (w.prompts.getD idx []) "usageCount") with
    | error e =>
      left
      simp only [afterIncrementUsage, incrementUsage_found numberToString w id idx hf, hc]
    | ok count =>
      right
      refine ⟨idx, count, rfl, ?_, ?_⟩
      · simp only [incrementUsage_found numberToString w id idx hf, hc]
      · simp only [afterIncrementUsage, incrementUsage_found numberToString w id idx hf, hc]

theorem editPrompt_failure_prompts (w : World) (now : Int) (id data : JsVal)
    (hfail : (editPrompt w now id data).1 = false) :
    (editPrompt w now id data).2.prompts = w.prompts := by
  rw [editPrompt_eq] at hfail ⊢
  cases h : w.prompts.findIdx? (hasId id) with
  | none => rfl
  | some idx =>
    simp only [h] at hfail ⊢
    by_cases h1 : patchTextBlank data = true
    · simp [h1, World.showError]
    · by_cases h2 : patchLacksFolder data = true
      · simp [h1, h2, World.showError]
      · simp [h1, h2] at hfail

/-! ## C12: uniqueness of ids -/

theorem addPrompt_keeps_unique (w : World) (prompt : JsVal) (hu : UniqueIds w) :
    UniqueIds (addPrompt w prompt).2 := by
  by_cases h1 : invalidRecord prompt = true
  · have heq : addPrompt w prompt = (false, w.showError ErrorKey.invalidPrompts) := by
      rw [addPrompt_eq]
      simp [h1]
    rw [heq]
    exact hu
  · by_cases h2 : (prompt.member "folderId").truthy = false
    · have heq : addPrompt w prompt = (false, w.showError ErrorKey.mustSelectFolder) := by
        rw [addPrompt_eq]
        simp [h1, h2]
      rw [heq]
      exact hu
    · by_cases h3 : w.prompts.any (hasId (prompt.member "id")) = true
      · have heq : addPrompt w prompt = (false, w.showError ErrorKey.duplicatePrompt) := by
          rw [addPrompt_eq]
          simp [h1, h2, h3]
        rw [heq]
        exact hu
      · have heq : addPrompt w prompt = (true, created w prompt.ownProps) := by
          rw [addPrompt_eq]
          simp [h1, h2, h3]
        have hobj := ownProps_of_valid prompt (by simpa using h1)
        have hid : Obj.get prompt.ownProps "id" = prompt.member "id" := by
          conv => rhs; rw [hobj]
          rfl
        have hnone : ∀ q ∈ w.prompts, JsVal.strictEq (Obj.get q "id") (prompt.member "id") =
            false := by
          intro q hq
          by_contra hc
          apply h3
          rw [List.any_eq_true]
          exact ⟨q, hq, by simpa [hasId] using hc⟩
        rw [heq]
        simp only [created, UniqueIds, List.map_append, List.map_cons, List.map_nil]
        rw [List.pairwise_append]
        refine ⟨hu, List.pairwise_singleton _ _, ?_⟩
        intro a ha b hb
        rw [List.mem_singleton] at hb
        obtain ⟨q, hq, rfl⟩ := List.mem_map.mp ha
        rw [hb, hid]
        exact hnone q hq

theorem strictEq_eq (a b : JsVal) (h : JsVal.strictEq a b = true) : a = b := by
  cases a <;> cases b <;> simp [JsVal.strictEq] at h <;> simp [h]

theorem strictEq_self_of_eq (a b : JsVal) (h : JsVal.strictEq a b = true) :
    JsVal.strictEq a a = true := by
  have e := strictEq_eq a b h
  rw [← e] at h
  exact h

theorem strictEq_comm (a b : JsVal) : JsVal.strictEq a b = JsVal.strictEq b a := by
  cases a <;> cases b <;> simp [JsVal.strictEq, eq_comm]

/-- Writing `v` at one position of a list keeps a symmetric relation pairwise when `v` is
related to the element of every other position. -/
theorem pairwise_set {α : Type} (R : α → α → Prop) (hsymm : ∀ a b, R a b → R b a)
    (l : List α) (idx : Nat) (v : α) (hl : l.Pairwise R)
    (hv : ∀ (j : Nat) (hj : j < l.length), j ≠ idx → R (l.get ⟨j, hj⟩) v) :
    (l.set idx v).Pairwise R := by
  induction l generalizing idx with
  | nil => simp
  | cons a t ih =>
    rw [List.pairwise_cons] at hl
    cases idx with
    | zero =>
      rw [List.set_cons_zero, List.pairwise_cons]
      refine ⟨?_, hl.2⟩
      intro b hb
      obtain ⟨k, hk, rfl⟩ := List.getElem_of_mem hb
      exact hsymm _ _ (hv (k + 1) (Nat.succ_lt_succ hk) (Nat.succ_ne_zero k))
    | succ n =>
      rw [List.set_cons_succ, List.pairwise_cons]
      refine ⟨?_, ih n hl.2 ?_⟩
      · intro b hb
        rcases List.mem_or_eq_of_mem_set hb with hb | hb
        · exact hl.1 b hb
        · rw [hb]
          exact hv 0 (Nat.succ_pos _) (Nat.succ_ne_zero n).symm
      · intro j hj hne
        exact hv (j + 1) (Nat.succ_lt_succ hj) (fun e => hne (Nat.succ_injective e))

/-- In a collection with unique ids, the only position whose record has the id `id` is the
one `findIndex` answers. -/
theorem unique_position (w : World) (id : JsVal) (idx j : Nat) (hu : UniqueIds w)
    (hf : w.prompts.findIdx? (hasId id) = some idx) (hj : j < w.prompts.length)
    (hid : JsVal.strictEq (Obj.get (w.prompts.get ⟨j, hj⟩) "id") id = true) : j = idx := by
  obtain ⟨hlt, hp, hbefore⟩ := List.findIdx?_eq_some_iff_getElem.mp hf
  by_contra hne
  rcases Nat.lt_or_gt_of_ne hne with hlt2 | hgt
  · have := hbefore j hlt2
    simp only [hasId, List.get_eq_getElem] at this hid
    rw [hid] at this
    exact this rfl
  · have hpair := List.pairwise_iff_getElem.mp hu idx j (by simpa using hlt) (by simpa using hj)
      hgt
    simp only [List.getElem_map] at hpair
    have e1 := strictEq_eq _ _ hid
    simp only [hasId] at hp
    simp only [List.get_eq_getElem] at e1
    rw [e1] at hpair
    rw [hp] at hpair
    exact Bool.noConfusion hpair

/-- A patch that specifies no id gives the record no id of another record. -/
theorem keepsOtherIds_of_no_id (w : World) (id data : JsVal)
    (h : patchField data "id" = none) : keepsOtherIds w id data := by
  intro v hv
  rw [h] at hv
  cases hv

/-- A patch that specifies an id no stored record has gives the record no id of another
record. -/
theorem keepsOtherIds_of_fresh (w : World) (id data v : JsVal)
    (h : patchField data "id" = some v) (hfresh : ¬ idExists w v) :
    keepsOtherIds w id data := by
  intro v2 hv q hq hs
  rw [h] at hv
  cases hv
  exact absurd ⟨q, hq, hs⟩ hfresh

/-- A patch that specifies the id of the call, the id the record already has, gives the
record no id of another record. -/
theorem keepsOtherIds_of_own (w : World) (id data : JsVal)
    (h : patchField data "id" = some id) : keepsOtherIds w id data := by
  intro v2 hv q _ hs
  rw [h] at hv
  cases hv
  exact hs

theorem editPrompt_keeps_unique (w : World) (now : Int) (id data : JsVal)
    (hid0 : (editPrompt w now id data).1 = true → keepsOtherIds w id data) (hu : UniqueIds w) :
    UniqueIds (editPrompt w now id data).2 := by
  cases hres : (editPrompt w now id data).1 with
  | false =>
    have hsame := editPrompt_failure_prompts w now id data hres
    simpa [UniqueIds, hsame] using hu
  | true =>
    have hid := hid0 hres
    obtain ⟨idx, hlt, hf, _, hgetD, heq⟩ := editPrompt_success_eq w now id data hres
    rw [heq]
    simp only [UniqueIds, updated]
    cases hpatch : patchField data "id" with
    | none =>
      rw [map_set_same (fun p => Obj.get p "id") w.prompts idx _ hlt]
      · exact hu
      · rw [hgetD]
        exact get_mergePatch "id" _ data now (by decide) hpatch
    | some v =>
      have hnew : Obj.get (mergePatch (w.prompts.getD idx []) data now) "id" = v := by
        simp [Obj.get, lookup_mergePatch, hpatch]
      rw [List.map_set, hnew]
      apply pairwise_set _ (fun a b h => by rw [strictEq_comm]; exact h) _ idx v hu
      intro j hj hne
      have hj2 : j < w.prompts.length := by simpa using hj
      cases hc : JsVal.strictEq ((w.prompts.map (fun p => Obj.get p "id")).get ⟨j, hj⟩) v with
      | false => rfl
      | true =>
        exfalso
        apply hne
        have hc2 : JsVal.strictEq (Obj.get (w.prompts.get ⟨j, hj2⟩) "id") v = true := by
          simpa using hc
        exact unique_position w id idx j hu hf hj2
          (hid v hpatch _ (List.get_mem _ _ _) hc2)

theorem deletePrompt_prompts (w : World) (id : JsVal) :
    (deletePrompt w id).prompts = w.prompts.filter (fun p => !hasId id p) := by
  unfold deletePrompt
  cases w.prompts.find? (hasId id) <;> rfl

theorem deletePrompt_keeps_unique (w : World) (id : JsVal) (hu : UniqueIds w) :
    UniqueIds (deletePrompt w id) := by
  simp only [UniqueIds, deletePrompt_prompts]
  exact List.Pairwise.sublist ((List.filter_sublist w.prompts).map _) hu

theorem toggleFavorite_keeps_unique (w : World) (id : JsVal) (hu : UniqueIds w) :
    UniqueIds (toggleFavorite w id) := by
  cases h : w.prompts.findIdx? (hasId id) with
  | none =>
    rw [toggleFavorite_absent w id h]
    exact hu
  | some idx =>
    obtain ⟨hlt, hgetD, _⟩ := findIdx?_getD w.prompts id idx h
    rw [toggleFavorite_found w id idx h]
    simp only [UniqueIds, toggled]
    rw [map_set_same (fun p => Obj.get p "id") w.prompts idx _ hlt]
    · exact hu
    · rw [hgetD]
      exact get_set_ne _ "id" "favorite" _ (by decide)

theorem incrementUsage_keeps_unique (numberToString : Int → String) (w : World) (id : JsVal)
    (hu : UniqueIds w) : UniqueIds (afterIncrementUsage numberToString w id) := by
  rcases afterIncrementUsage_cases numberToString w id with h | ⟨idx, count, hf, _, h⟩
  · rw [h]
    exact hu
  · obtain ⟨hlt, hgetD, _⟩ := findIdx?_getD w.prompts id idx hf
    rw [h]
    simp only [UniqueIds, incremented]
    rw [map_set_same (fun p => Obj.get p "id") w.prompts idx _ hlt]
    · exact hu
    · rw [hgetD]
      exact get_set_ne _ "id" "usageCount" _ (by decide)

theorem idKeepingStep_keeps_unique (numberToString : Int → String) (w w1 : World)
    (hstep : IdKeepingStep numberToString w w1) (hu : UniqueIds w) : UniqueIds w1 := by
  cases hstep with
  | create prompt => exact addPrompt_keeps_unique w prompt hu
  | update now id data hid => exact editPrompt_keeps_unique w now id data hid hu
  | delete id => exact deletePrompt_keeps_unique w id hu
  | toggle id => exact toggleFavorite_keeps_unique w id hu
  | increment id => exact incrementUsage_keeps_unique numberToString w id hu

/-- C12, amended: from a store state in which no two records have the same id, every
sequence of create, delete, toggleFavorite and incrementUsage calls with any arguments, and
of update calls that fail or whose patch does not give the record an id that another record
holds (a patch that specifies no id, a fresh id or the id the record already has), leads to
a state in which no two records have the same id. -/
theorem unique_ids_preserved (numberToString : Int → String) (w w1 : World) (hu : UniqueIds w)
    (hr : Relation.ReflTransGen (IdKeepingStep numberToString) w w1) : UniqueIds w1 := by
  induction hr with
  | refl => exact hu
  | tail _ hstep ih => exact idKeepingStep_keeps_unique numberToString _ _ hstep ih

/-- Supporting C12: `init` keeps the loaded ids that are strings, so the collection it
yields has unique ids when the loaded ids are strings and pairwise different. -/
theorem init_unique_ids (h : Host) (c c1 : Calls) (w w1 : World) (raw : List JsVal)
    (hstr : ∀ p ∈ raw, isStringVal (p.member "id") = true)
    (hdistinct : (raw.map (fun p => p.member "id")).Pairwise
      (fun a b => JsVal.strictEq a b = false))
    (hinit : init h c w raw = Except.ok (w1, c1)) : UniqueIds w1 := by
  have hpresent : ∀ p ∈ raw, isAbsent p = false := by
    intro p hp
    have hs := hstr p hp
    cases p <;> first | rfl | simp [JsVal.member, isStringVal] at hs
  obtain ⟨rs, c2, hrs, hrel⟩ := normalizeAll_present h raw c hpresent
  have hw : w1.prompts = rs := by
    simp only [init, hrs] at hinit
    cases hinit
    rfl
  have hids : ∀ (l : List JsVal) (rs : List Obj), List.Forall₂ (NormalizedFrom h) l rs →
      (∀ p ∈ l, isStringVal (p.member "id") = true) →
      rs.map (fun r => Obj.get r "id") = l.map (fun p => p.member "id") := by
    intro l rs hf
    induction hf with
    | nil => intro _; rfl
    | cons hhead _ ih =>
      intro hall
      obtain ⟨ku, k1, k2, hk⟩ := hhead
      rw [List.map_cons, List.map_cons, ih (fun p hp => hall p (List.mem_cons_of_mem _ hp)), hk]
      congr 1
      simp [normalizedRecord, Obj.get, lookup_cons, lookup_nil,
        hall _ (List.mem_cons_self _ _)]
  simp only [UniqueIds, hw, hids raw rs hrel hstr]
  exact hdistinct

/-- C12 as stated fails on the code. `init` keeps two loaded records that share the id
`"a"`, so the state right after `init` has a repeated id; and from the collection with the
two ids `"a"` and `"b"` the update of `"b"` with the patch `{id: "a", folderId: "f1"}`
succeeds and leaves two records with the id `"a"`. -/
theorem ids_repeat_after_init_and_update :
    init sampleHost noCalls emptyWorld [JsVal.obj recA1, JsVal.obj recA2] =
      Except.ok (dupWorld, noCalls) ∧
    ¬ UniqueIds dupWorld ∧
    UniqueIds worldAB ∧
    Step decimal worldAB (editPrompt worldAB 9 (JsVal.str "b") patchIdA).2 ∧
    (editPrompt worldAB 9 (JsVal.str "b") patchIdA).1 = true ∧
    ¬ UniqueIds (editPrompt worldAB 9 (JsVal.str "b") patchIdA).2 := by
  refine ⟨rfl, ?_, ?_, Step.update worldAB 9 (JsVal.str "b") patchIdA, rfl, ?_⟩
  · intro hu
    have h2 : JsVal.strictEq (Obj.get recA1 "id") (Obj.get recA2 "id") = false := by
      simp only [UniqueIds, dupWorld, List.map_cons, List.map_nil, List.pairwise_cons] at hu
      exact hu.1 _ (List.mem_singleton_self _)
    exact Bool.noConfusion (h2.symm.trans (rfl : JsVal.strictEq (Obj.get recA1 "id")
      (Obj.get recA2 "id") = true))
  · simp only [UniqueIds, worldAB, List.map_cons, List.map_nil, List.pairwise_cons]
    refine ⟨?_, ?_, List.Pairwise.nil⟩
    · intro b hb
      rw [List.mem_singleton] at hb
      rw [hb]
      rfl
    · intro b hb
      cases hb
  · intro hu
    have hp : (editPrompt worldAB 9 (JsVal.str "b") patchIdA).2.prompts =
        [recA1, mergePatch recB1 patchIdA 9] := rfl
    have h2 : JsVal.strictEq (Obj.get recA1 "id")
        (Obj.get (mergePatch recB1 patchIdA 9) "id") = false := by
      simp only [UniqueIds, hp, List.map_cons, List.map_nil, List.pairwise_cons] at hu
      exact hu.1 _ (List.mem_singleton_self _)
    exact Bool.noConfusion (h2.symm.trans (rfl : JsVal.strictEq (Obj.get recA1 "id")
      (Obj.get (mergePatch recB1 patchIdA 9) "id") = true))

/-- The amended C12 at a concrete run: from the collection with the ids `"a"` and `"b"`, an
update of `"b"` whose patch sets the fresh id `"c"`, followed by an incrementUsage of
`"a"`. -/
theorem unique_ids_preserved_witness :
    UniqueIds (afterIncrementUsage decimal (editPrompt worldAB 9 (JsVal.str "b") patchIdC).2
      (JsVal.str "a")) :=
  unique_ids_preserved decimal worldAB _
    (by
      simp only [UniqueIds, worldAB, List.map_cons, List.map_nil, List.pairwise_cons]
      refine ⟨?_, ?_, List.Pairwise.nil⟩
      · intro b hb
        rw [List.mem_singleton] at hb
        rw [hb]
        rfl
      · intro b hb
        cases hb)
    (Relation.ReflTransGen.tail
      (Relation.ReflTransGen.single
        (IdKeepingStep.update worldAB 9 (JsVal.str "b") patchIdC
          (by
            intro _ v hv q hq hs
            have h0 : patchField patchIdC "id" = some (JsVal.str "c") := rfl
            rw [h0] at hv
            cases hv
            simp only [worldAB, List.mem_cons, List.mem_singleton, List.not_mem_nil,
              or_false] at hq
            rcases hq with rfl | rfl
            · exact Bool.noConfusion ((rfl : JsVal.strictEq (Obj.get recA1 "id")
                (JsVal.str "c") = false).symm.trans hs)
            · exact Bool.noConfusion ((rfl : JsVal.strictEq (Obj.get recB1 "id")
                (JsVal.str "c") = false).symm.trans hs))))
      (IdKeepingStep.increment _ (JsVal.str "a")))

/-- A successful `editPrompt` replaces the first record with the id by its merge with the
patch. -/
theorem editPrompt_success_records (w : World) (now : Int) (id data : JsVal)
    (hok : (editPrompt w now id data).1 = true) :
    ∃ (idx : Nat) (old : Obj), w.prompts[idx]? = some old ∧ hasId id old = true ∧
      (editPrompt w now id data).2.prompts[idx]? = some (mergePatch old data now) ∧
      (editPrompt w now id data).2 = updated w now id data idx := by
  obtain ⟨idx, hlt, _, hp, hgetD, heq⟩ := editPrompt_success_eq w now id data hok
  refine ⟨idx, w.prompts.get ⟨idx, hlt⟩, List.getElem?_eq_getElem hlt, hp, ?_, ?_⟩
  · rw [heq]
    simp only [updated, hgetD]
    exact List.getElem?_set_self hlt
  · rw [heq]

/-! ## C13: a second create with the same id -/

/-- C13, amended: for a valid record `r` (non-blank text, truthy folderId) whose id is not yet
in the store, create succeeds; a following create of any valid record with the same id fails
with `duplicatePrompt`; and afterwards the store holds exactly one record with that id. -/
theorem addPrompt_twice (w : World) (r r2 : JsVal)
    (hvalid : invalidRecord r = false) (hfolder : (r.member "folderId").truthy = true)
    (hvalid2 : invalidRecord r2 = false) (hfolder2 : (r2.member "folderId").truthy = true)
    (hfresh : ¬ idExists w (r.member "id"))
    (hsame : JsVal.strictEq (r.member "id") (r2.member "id") = true) :
    (addPrompt w r).1 = true ∧
    addPrompt (addPrompt w r).2 r2 =
      (false, (addPrompt w r).2.showError ErrorKey.duplicatePrompt) ∧
    (addPrompt (addPrompt w r).2 r2).2.prompts.countP (hasId (r.member "id")) = 1 := by
  have hfresh2 : w.prompts.any (hasId (r.member "id")) = false := by
    rw [← any_hasId_iff] at hfresh
    simpa using hfresh
  have heq : addPrompt w r = (true, created w r.ownProps) := by
    rw [addPrompt_eq]
    simp [hvalid, hfolder, hfresh2]
  have hobj := ownProps_of_valid r hvalid
  have hid : Obj.get r.ownProps "id" = r.member "id" := by
    conv => rhs; rw [hobj]
    rfl
  have hidsame : r.member "id" = r2.member "id" := strictEq_eq _ _ hsame
  have hself : hasId (r.member "id") r.ownProps = true := by
    simp only [hasId, hid]
    exact strictEq_self_of_eq _ _ hsame
  have hdup : (created w r.ownProps).prompts.any (hasId (r2.member "id")) = true := by
    simp only [created, List.any_append, List.any_cons, List.any_nil, Bool.or_false]
    rw [← hidsame, hself]
    simp
  have heq2 : addPrompt (created w r.ownProps) r2 =
      (false, (created w r.ownProps).showError ErrorKey.duplicatePrompt) := by
    rw [addPrompt_eq]
    simp [hvalid2, hfolder2, hdup]
  have hzero : w.prompts.countP (hasId (r.member "id")) = 0 := by
    rw [List.countP_eq_zero]
    intro q hq
    have := List.any_eq_false.mp hfresh2 q hq
    simpa using this
  refine ⟨by rw [heq], by rw [heq, heq2], ?_⟩
  rw [heq, heq2]
  simp only [World.showError, created, List.countP_append, hzero, List.countP_cons,
    List.countP_nil, hself]
  rfl

/-- C13 as stated fails on the code: the record `{id: "b", text: "hi", folderId: ""}` is
valid in the claim's sense (non-blank text, a folderId that is a string and not the
absent-marker) and its id is not in the empty store, yet create does not succeed. -/
theorem addPrompt_valid_record_rejected :
    invalidRecord emptyFolderPrompt = false ∧
    isConcrete (emptyFolderPrompt.member "folderId") = true ∧
    emptyWorld.prompts.any (hasId (emptyFolderPrompt.member "id")) = false ∧
    (addPrompt emptyWorld emptyFolderPrompt).1 = false ∧
    (addPrompt emptyWorld emptyFolderPrompt).2.prompts = [] :=
  ⟨rfl, rfl, rfl, rfl, rfl⟩

/-- The amended C13 at concrete records: `goodPrompt`, then `goodPromptAgain` with the same
id, in `worldA`. -/
theorem addPrompt_twice_witness :
    (addPrompt worldA goodPrompt).1 = true ∧
    addPrompt (addPrompt worldA goodPrompt).2 goodPromptAgain =
      (false, (addPrompt worldA goodPrompt).2.showError ErrorKey.duplicatePrompt) ∧
    (addPrompt (addPrompt worldA goodPrompt).2 goodPromptAgain).2.prompts.countP
      (hasId (goodPrompt.member "id")) = 1 :=
  addPrompt_twice worldA goodPrompt goodPromptAgain rfl rfl rfl rfl
    (fun h => Bool.false_ne_true ((any_hasId_iff worldA (goodPrompt.member "id")).mpr h)) rfl

/-! ## C14 and C15: what a successful update does to single fields -/

/-- C14, amended: a successful `editPrompt` leaves each of id, createdAt, favorite and
usageCount of the target record unchanged when the patch does not specify that field; a
field of these that the patch does specify takes the patch's value. -/
theorem editPrompt_keeps_unspecified (w : World) (now : Int) (id data : JsVal)
    (hok : (editPrompt w now id data).1 = true) :
    ∃ (idx : Nat) (old new : Obj), w.prompts[idx]? = some old ∧ hasId id old = true ∧
      (editPrompt w now id data).2.prompts[idx]? = some new ∧
      (∀ k ∈ protectedFields, patchField data k = none →
        Obj.lookup k new = Obj.lookup k old) ∧
      (∀ k ∈ protectedFields, ∀ v, patchField data k = some v →
        Obj.lookup k new = some v) := by
  obtain ⟨idx, old, hold, hid, hnew, _⟩ := editPrompt_success_records w now id data hok
  have hne : ∀ k ∈ protectedFields, k ≠ "updatedAt" := by
    intro k hk
    simp only [protectedFields, List.mem_cons, List.mem_singleton, List.not_mem_nil,
      or_false] at hk
    rcases hk with e | e | e | e <;> rw [e] <;> decide
  refine ⟨idx, old, mergePatch old data now, hold, hid, hnew, ?_, ?_⟩
  · intro k hk hnone
    simp [lookup_mergePatch, hne k hk, hnone]
  · intro k hk v hv
    simp [lookup_mergePatch, hne k hk, hv]

/-- C14 as stated fails on the code: the update of the record `"a"` with a patch that
specifies id, createdAt, favorite and usageCount succeeds and changes all four. -/
theorem editPrompt_overwrites_protected :
    (editPrompt worldA1 9 (JsVal.str "a") patchAll).1 = true ∧
    worldA1.prompts.map (fun p => protectedFields.map (Obj.lookup · p)) =
      [[some (JsVal.str "a"), some (JsVal.num 1), some (JsVal.bool false),
        some (JsVal.num 0)]] ∧
    (editPrompt worldA1 9 (JsVal.str "a") patchAll).2.prompts.map
        (fun p => protectedFields.map (Obj.lookup · p)) =
      [[some (JsVal.str "z"), some (JsVal.num 0), some (JsVal.bool true),
        some (JsVal.num 99)]] :=
  ⟨rfl, rfl, rfl⟩

/-- The amended C14 on the specification's example: `patchY` specifies none of the four
fields. -/
theorem editPrompt_keeps_unspecified_witness :
    ∃ (idx : Nat) (old new : Obj), worldA.prompts[idx]? = some old ∧
      hasId (JsVal.str "a") old = true ∧
      (editPrompt worldA 5 (JsVal.str "a") patchY).2.prompts[idx]? = some new ∧
      (∀ k ∈ protectedFields, patchField patchY k = none →
        Obj.lookup k new = Obj.lookup k old) ∧
      (∀ k ∈ protectedFields, ∀ v, patchField patchY k = some v →
        Obj.lookup k new = some v) :=
  editPrompt_keeps_unspecified worldA 5 (JsVal.str "a") patchY rfl

/-- C15, amended: after a successful `editPrompt` the record's updatedAt is the current
time; it is strictly greater than the updatedAt before the call whenever the current time
is later than that stored value. -/
theorem editPrompt_updatedAt (w : World) (now : Int) (id data : JsVal)
    (hok : (editPrompt w now id data).1 = true) :
    ∃ (idx : Nat) (old new : Obj), w.prompts[idx]? = some old ∧ hasId id old = true ∧
      (editPrompt w now id data).2.prompts[idx]? = some new ∧
      Obj.get new "updatedAt" = JsVal.num now ∧
      (∀ t : Int, Obj.get old "updatedAt" = JsVal.num t → t < now →
        ∃ t2 : Int, Obj.get new "updatedAt" = JsVal.num t2 ∧ t < t2) := by
  obtain ⟨idx, old, hold, hid, hnew, _⟩ := editPrompt_success_records w now id data hok
  have hup : Obj.get (mergePatch old data now) "updatedAt" = JsVal.num now := by
    simp [Obj.get, lookup_mergePatch]
  exact ⟨idx, old, mergePatch old data now, hold, hid, hnew, hup,
    fun t _ hlt => ⟨now, hup, hlt⟩⟩

/-- C15 as stated fails on the code: the record `"a"` has updatedAt 1, and an update made
while the clock reads 1 succeeds and leaves updatedAt at 1, which is not strictly greater. -/
theorem editPrompt_updatedAt_not_greater :
    (editPrompt worldA1 1 (JsVal.str "a") patchY).1 = true ∧
    worldA1.prompts.map (fun p => Obj.get p "updatedAt") = [JsVal.num 1] ∧
    (editPrompt worldA1 1 (JsVal.str "a") patchY).2.prompts.map
      (fun p => Obj.get p "updatedAt") = [JsVal.num 1] :=
  ⟨rfl, rfl, rfl⟩

/-- The amended C15 at a concrete input: the record `"a"` with updatedAt 1, updated at
time 5. -/
theorem editPrompt_updatedAt_witness :
    ∃ (idx : Nat) (old new : Obj), worldA1.prompts[idx]? = some old ∧
      hasId (JsVal.str "a") old = true ∧
      (editPrompt worldA1 5 (JsVal.str "a") patchY).2.prompts[idx]? = some new ∧
      Obj.get new "updatedAt" = JsVal.num 5 ∧
      (∀ t : Int, Obj.get old "updatedAt" = JsVal.num t → t < 5 →
        ∃ t2 : Int, Obj.get new "updatedAt" = JsVal.num t2 ∧ t < t2) :=
  editPrompt_updatedAt worldA1 5 (JsVal.str "a") patchY rfl

/-! ## C16: toggleFavorite -/

theorem findIdx?_set_same (l : List Obj) (id : JsVal) (idx : Nat) (m : Obj)
    (h : l.findIdx? (hasId id) = some idx) (hm : hasId id m = true) :
    (l.set idx m).findIdx? (hasId id) = some idx := by
  obtain ⟨hlt, _, hmin⟩ := List.findIdx?_eq_some_iff_getElem.mp h
  rw [List.findIdx?_eq_some_iff_getElem]
  refine ⟨by simpa using hlt, ?_, ?_⟩
  · simpa using hm
  · intro j hj
    have hne : idx ≠ j := fun e => Nat.lt_irrefl j (e ▸ hj)
    rw [List.getElem_set_ne hne]
    exact hmin j hj

theorem getD_set_self (l : List Obj) (idx : Nat) (m : Obj) (hlt : idx < l.length) :
    (l.set idx m).getD idx [] = m := by
  simp [List.getD_eq_getElem?_getD, List.getElem?_set_self hlt]

theorem lookup_of_get (o : Obj) (k : String) (v : JsVal) (h : Obj.get o k = v)
    (hv : v ≠ JsVal.undefined) : Obj.lookup k o = some v := by
  unfold Obj.get at h
  cases hl : Obj.lookup k o with
  | none =>
    rw [hl] at h
    exact absurd h.symm hv
  | some x =>
    rw [hl] at h
    simpa using h

theorem bool_of_isBoolVal (v : JsVal) (h : isBoolVal v = true) : ∃ b, v = JsVal.bool b := by
  cases v with
  | bool b => exact ⟨b, rfl⟩
  | _ => simp [isBoolVal] at h

/-- C16, amended: a `toggleFavorite` call with an id that no record has changes nothing and
emits no event. A call with the id of an existing record sets the favorite of the first
record with that id to the negation of its truthiness and changes no other field of it and
no other record. Two consecutive calls leave its favorite at the boolean of its original
truthiness and every other field and every other record as they were: every field of the
record, favorite included, is at its original value when the original favorite is a
boolean, and favorite differs from its original value when it is not. -/
theorem toggleFavorite_self_inverse (w : World) (id : JsVal) :
    (¬ idExists w id → toggleFavorite w id = w) ∧
    (idExists w id →
      ∃ (idx : Nat) (old new new2 : Obj),
        w.prompts[idx]? = some old ∧ hasId id old = true ∧
        (toggleFavorite w id).prompts[idx]? = some new ∧
        Obj.get new "favorite" = JsVal.bool (!(Obj.get old "favorite").truthy) ∧
        (∀ k, k ≠ "favorite" → Obj.lookup k new = Obj.lookup k old) ∧
        (toggleFavorite w id).prompts.length = w.prompts.length ∧
        (∀ j, j ≠ idx → (toggleFavorite w id).prompts[j]? = w.prompts[j]?) ∧
        (toggleFavorite (toggleFavorite w id) id).prompts[idx]? = some new2 ∧
        Obj.get new2 "favorite" = JsVal.bool (Obj.get old "favorite").truthy ∧
        (∀ k, k ≠ "favorite" → Obj.lookup k new2 = Obj.lookup k old) ∧
        (isBoolVal (Obj.get old "favorite") = true →
          ∀ k, Obj.lookup k new2 = Obj.lookup k old) ∧
        (isBoolVal (Obj.get old "favorite") = false →
          Obj.get new2 "favorite" ≠ Obj.get old "favorite") ∧
        (toggleFavorite (toggleFavorite w id) id).prompts.length = w.prompts.length ∧
        (∀ j, j ≠ idx →
          (toggleFavorite (toggleFavorite w id) id).prompts[j]? = w.prompts[j]?)) := by
  constructor
  · intro hno
    exact toggleFavorite_absent w id ((findIdx?_hasId_eq_none_iff w id).mpr hno)
  · intro hyes
    cases hf : w.prompts.findIdx? (hasId id) with
    | none => exact absurd hyes ((findIdx?_hasId_eq_none_iff w id).mp hf)
    | some idx =>
      obtain ⟨hlt, hgetD, hid⟩ := findIdx?_getD w.prompts id idx hf
      have h1 : toggleFavorite w id = toggled w id idx := toggleFavorite_found w id idx hf
      have hnewid : hasId id (Obj.set (w.prompts.get ⟨idx, hlt⟩) "favorite"
          (JsVal.bool (!(Obj.get (w.prompts.get ⟨idx, hlt⟩) "favorite").truthy))) = true := by
        simp only [hasId, get_set_ne _ "id" "favorite" _ (by decide)]
        exact hid
      have hp1 : (toggled w id idx).prompts =
          w.prompts.set idx (Obj.set (w.prompts.get ⟨idx, hlt⟩) "favorite"
            (JsVal.bool (!(Obj.get (w.prompts.get ⟨idx, hlt⟩) "favorite").truthy))) := by
        simp only [toggled, hgetD]
      have hf2 : (toggled w id idx).prompts.findIdx? (hasId id) = some idx := by
        rw [hp1]
        exact findIdx?_set_same _ id idx _ hf hnewid
      have h2 : toggleFavorite (toggled w id idx) id = toggled (toggled w id idx) id idx :=
        toggleFavorite_found _ id idx hf2
      have hgetD2 : (toggled w id idx).prompts.getD idx [] =
          Obj.set (w.prompts.get ⟨idx, hlt⟩) "favorite"
            (JsVal.bool (!(Obj.get (w.prompts.get ⟨idx, hlt⟩) "favorite").truthy)) := by
        rw [hp1]
        exact getD_set_self _ idx _ hlt
      have hp2 : (toggled (toggled w id idx) id idx).prompts =
          w.prompts.set idx (Obj.set (Obj.set (w.prompts.get ⟨idx, hlt⟩) "favorite"
            (JsVal.bool (!(Obj.get (w.prompts.get ⟨idx, hlt⟩) "favorite").truthy)))
            "favorite" (JsVal.bool (Obj.get (w.prompts.get ⟨idx, hlt⟩) "favorite").truthy)) := by
        have hpp : (toggled (toggled w id idx) id idx).prompts =
            (toggled w id idx).prompts.set idx
              (Obj.set ((toggled w id idx).prompts.getD idx []) "favorite"
                (JsVal.bool (!(Obj.get ((toggled w id idx).prompts.getD idx [])
                  "favorite").truthy))) := rfl
        rw [hpp, hgetD2, get_set_self, hp1, List.set_set]
        simp [JsVal.truthy]
      rw [h1, h2]
      refine ⟨idx, w.prompts.get ⟨idx, hlt⟩,
        Obj.set (w.prompts.get ⟨idx, hlt⟩) "favorite"
          (JsVal.bool (!(Obj.get (w.prompts.get ⟨idx, hlt⟩) "favorite").truthy)),
        Obj.set (Obj.set (w.prompts.get ⟨idx, hlt⟩) "favorite"
          (JsVal.bool (!(Obj.get (w.prompts.get ⟨idx, hlt⟩) "favorite").truthy))) "favorite"
          (JsVal.bool (Obj.get (w.prompts.get ⟨idx, hlt⟩) "favorite").truthy),
        List.getElem?_eq_getElem hlt, hid, ?_, ?_, ?_, ?_, ?_, ?_, ?_, ?_, ?_, ?_, ?_, ?_⟩
      · rw [hp1]
        exact List.getElem?_set_self hlt
      · exact get_set_self _ _ _
      · intro k hk
        simp [lookup_set, hk]
      · rw [hp1]
        simp
      · intro j hj
        rw [hp1]
        exact List.getElem?_set_ne (Ne.symm hj)
      · rw [hp2]
        exact List.getElem?_set_self hlt
      · exact get_set_self _ _ _
      · intro k hk
        simp [lookup_set, hk]
      · intro hb k
        obtain ⟨b, hfav⟩ := bool_of_isBoolVal _ hb
        by_cases hk : k = "favorite"
        · rw [hk, hfav]
          simp only [lookup_set, if_true, JsVal.truthy]
          exact (lookup_of_get _ _ _ hfav (by simp)).symm
        · simp [lookup_set, hk]
      · intro hb heq
        rw [get_set_self] at heq
        rw [← heq] at hb
        simp [isBoolVal] at hb
      · rw [hp2]
        simp
      · intro j hj
        rw [hp2]
        exact List.getElem?_set_ne (Ne.symm hj)

/-- C16 as stated fails on the code. The create of `{id: "b", text: "hi", folderId: "f1"}`
succeeds on the empty store and stores the record as it is, without a favorite property; two
`toggleFavorite("b")` calls leave it with the favorite `false`, which is not its original
value, so the collection is not in its original state. -/
theorem toggleFavorite_twice_not_identity :
    (addPrompt emptyWorld goodPrompt).1 = true ∧
    (addPrompt emptyWorld goodPrompt).2.prompts =
      [[("id", JsVal.str "b"), ("text", JsVal.str "hi"), ("folderId", JsVal.str "f1")]] ∧
    (addPrompt emptyWorld goodPrompt).2.prompts.map (fun p => Obj.lookup "favorite" p) =
      [none] ∧
    (toggleFavorite (toggleFavorite (addPrompt emptyWorld goodPrompt).2 (JsVal.str "b"))
      (JsVal.str "b")).prompts =
      [[("id", JsVal.str "b"), ("text", JsVal.str "hi"), ("folderId", JsVal.str "f1"),
        ("favorite", JsVal.bool false)]] ∧
    (toggleFavorite (toggleFavorite (addPrompt emptyWorld goodPrompt).2 (JsVal.str "b"))
      (JsVal.str "b")).prompts.map (fun p => Obj.lookup "favorite" p) =
      [some (JsVal.bool false)] :=
  ⟨rfl, rfl, rfl, rfl, rfl⟩

/-- The amended C16 on the specification's record: toggling `"a"` in `worldA`, whose favorite
is `false`. -/
theorem toggleFavorite_self_inverse_witness :
    (toggleFavorite worldA (JsVal.str "zz") = worldA) ∧
    (toggleFavorite (toggleFavorite worldA (JsVal.str "a")) (JsVal.str "a")).prompts.length =
      worldA.prompts.length ∧
    (toggleFavorite (toggleFavorite worldA (JsVal.str "a")) (JsVal.str "a")).prompts =
      worldA.prompts :=
  ⟨(toggleFavorite_self_inverse worldA (JsVal.str "zz")).1
      (fun h => Bool.false_ne_true ((any_hasId_iff worldA (JsVal.str "zz")).mpr h)),
   by
    obtain ⟨_, _, _, _, _, _, _, _, _, _, _, _, _, _, _, _, hlen, _⟩ :=
      (toggleFavorite_self_inverse worldA (JsVal.str "a")).2
        ((any_hasId_iff worldA (JsVal.str "a")).mp rfl)
    exact hlen,
   rfl⟩

/-! ## C17: incrementUsage -/

mutual
theorem elementToString_total (numberToString : Int → String) :
    ∀ v : JsVal, (stringifies v = true → ∃ t, elementToString numberToString v = Except.ok t) ∧
      (stringifies v = false → elementToString numberToString v = Except.error JsError.typeError)
  | JsVal.undefined => ⟨fun _ => ⟨_, rfl⟩, fun h => by simp [stringifies] at h⟩
  | JsVal.null => ⟨fun _ => ⟨_, rfl⟩, fun h => by simp [stringifies] at h⟩
  | JsVal.bool _ => ⟨fun _ => ⟨_, rfl⟩, fun h => by simp [stringifies] at h⟩
  | JsVal.num _ => ⟨fun _ => ⟨_, rfl⟩, fun h => by simp [stringifies] at h⟩
  | JsVal.str _ => ⟨fun _ => ⟨_, rfl⟩, fun h => by simp [stringifies] at h⟩
  | JsVal.arr items => by
    have ih := joinElements_total numberToString items
    simp only [stringifies, elementToString]
    exact ih
  | JsVal.obj props => by
    simp only [stringifies, elementToString, objectToString]
    cases Obj.lookup "toString" props with
    | none => exact ⟨fun _ => ⟨_, rfl⟩, fun h => by simp at h⟩
    | some x => exact ⟨fun h => by simp at h, fun _ => rfl⟩
theorem joinElements_total (numberToString : Int → String) :
    ∀ l : List JsVal, (allStringify l = true → ∃ t, joinElements numberToString l = Except.ok t) ∧
      (allStringify l = false → joinElements numberToString l = Except.error JsError.typeError)
  | [] => ⟨fun _ => ⟨_, rfl⟩, fun h => by simp [allStringify] at h⟩
  | x :: rest => by
    have ihx := elementToString_total numberToString x
    have ihr := joinElements_total numberToString rest
    simp only [allStringify, joinElements]
    cases hx : stringifies x with
    | false =>
      rw [ihx.2 hx]
      exact ⟨fun h => by simp at h, fun _ => rfl⟩
    | true =>
      obtain ⟨s, hs⟩ := ihx.1 hx
      rw [hs]
      cases rest with
      | nil => exact ⟨fun _ => ⟨_, rfl⟩, fun h => by simp [allStringify] at h⟩
      | cons y ys =>
        cases hr : allStringify (y :: ys) with
        | false =>
          rw [ihr.2 hr]
          exact ⟨fun h => by simp at h, fun _ => rfl⟩
        | true =>
          obtain ⟨t, ht⟩ := ihr.1 hr
          rw [ht]
          exact ⟨fun _ => ⟨_, rfl⟩, fun h => by simp at h⟩
end

/-- The addition `(v || 0) + 1` throws exactly when the string conversion of `v` does. -/
theorem orZeroPlusOne_total (numberToString : Int → String) (v : JsVal) :
    (stringifies v = true → ∃ c, orZeroPlusOne numberToString v = Except.ok c) ∧
    (stringifies v = false →
      orZeroPlusOne numberToString v = Except.error JsError.typeError) := by
  cases v with
  | undefined => exact ⟨fun _ => ⟨_, rfl⟩, fun h => by simp [stringifies] at h⟩
  | null => exact ⟨fun _ => ⟨_, rfl⟩, fun h => by simp [stringifies] at h⟩
  | bool b => exact ⟨fun _ => ⟨_, rfl⟩, fun h => by simp [stringifies] at h⟩
  | num n => exact ⟨fun _ => ⟨_, rfl⟩, fun h => by simp [stringifies] at h⟩
  | str s =>
    refine ⟨fun _ => ?_, fun h => by simp [stringifies] at h⟩
    by_cases hs : s = ""
    · exact ⟨JsVal.num 1, by simp [orZeroPlusOne, hs]⟩
    · exact ⟨JsVal.str (s ++ "1"), by simp [orZeroPlusOne, hs]⟩
  | arr items =>
    have h := joinElements_total numberToString items
    simp only [stringifies, orZeroPlusOne]
    constructor
    · intro ha
      obtain ⟨t, ht⟩ := h.1 ha
      rw [ht]
      exact ⟨_, rfl⟩
    · intro ha
      rw [h.2 ha]
  | obj props =>
    simp only [stringifies, orZeroPlusOne, objectToString]
    cases Obj.lookup "toString" props with
    | none => exact ⟨fun _ => ⟨_, rfl⟩, fun h => by simp at h⟩
    | some x => exact ⟨fun h => by simp at h, fun _ => rfl⟩

/-- One `incrementUsage` call on a record for whose count the addition gives `count`. -/
theorem incrementUsage_step (numberToString : Int → String) (w : World) (id : JsVal)
    (idx : Nat) (old : Obj) (count : JsVal)
    (hf : w.prompts.findIdx? (hasId id) = some idx) (hold : w.prompts[idx]? = some old)
    (hc : orZeroPlusOne numberToString (Obj.get old "usageCount") = Except.ok count) :
    ∃ w1 : World, incrementUsage numberToString w id = Except.ok w1 ∧
      w1 = incremented w id idx count ∧
      w1.prompts.findIdx? (hasId id) = some idx ∧
      w1.prompts[idx]? = some (Obj.set old "usageCount" count) ∧
      w1.prompts.length = w.prompts.length ∧
      (∀ j, j ≠ idx → w1.prompts[j]? = w.prompts[j]?) := by
  obtain ⟨hlt, hgetD, hid⟩ := findIdx?_getD w.prompts id idx hf
  have hold2 : w.prompts.get ⟨idx, hlt⟩ = old := by
    rw [List.getElem?_eq_getElem hlt] at hold
    exact Option.some.inj hold
  rw [hold2] at hgetD hid
  have hp : (incremented w id idx count).prompts =
      w.prompts.set idx (Obj.set old "usageCount" count) := by
    simp only [incremented, hgetD]
  refine ⟨incremented w id idx count, ?_, rfl, ?_, ?_, ?_, ?_⟩
  · rw [incrementUsage_found numberToString w id idx hf, hgetD, hc]
  · rw [hp]
    apply findIdx?_set_same _ id idx _ hf
    simp only [hasId, get_set_ne _ "id" "usageCount" _ (by decide)]
    exact hid
  · rw [hp]
    exact List.getElem?_set_self hlt
  · rw [hp]
    simp
  · intro j hj
    rw [hp]
    exact List.getElem?_set_ne (Ne.symm hj)

/-- One `incrementUsage` call on a record for whose count the addition throws. -/
theorem incrementUsage_throws (numberToString : Int → String) (w : World) (id : JsVal)
    (idx : Nat) (old : Obj) (e : JsError)
    (hf : w.prompts.findIdx? (hasId id) = some idx) (hold : w.prompts[idx]? = some old)
    (hc : orZeroPlusOne numberToString (Obj.get old "usageCount") = Except.error e) :
    incrementUsage numberToString w id = Except.error e := by
  obtain ⟨hlt, hgetD, _⟩ := findIdx?_getD w.prompts id idx hf
  have hold2 : w.prompts.get ⟨idx, hlt⟩ = old := by
    rw [List.getElem?_eq_getElem hlt] at hold
    exact Option.some.inj hold
  rw [hold2] at hgetD
  rw [incrementUsage_found numberToString w id idx hf, hgetD, hc]

theorem storesCount_of_step (numberToString : Int → String) (w : World) (id : JsVal)
    (idx : Nat) (old : Obj) (count : JsVal)
    (hf : w.prompts.findIdx? (hasId id) = some idx) (hold : w.prompts[idx]? = some old)
    (hc : orZeroPlusOne numberToString (Obj.get old "usageCount") = Except.ok count) :
    storesCount numberToString w id idx old count := by
  obtain ⟨w1, h1, _, _, hold1, hlen, hother⟩ :=
    incrementUsage_step numberToString w id idx old count hf hold hc
  refine ⟨w1, _, h1, hold1, get_set_self _ _ _, ?_, hlen, hother⟩
  intro k hk
  rw [lookup_set]
  simp [hk]

theorem addOne_exact (m : Int) (hlo : -(2 ^ 53) ≤ m) (hhi : m < 2 ^ 53) : addOne m = m + 1 := by
  unfold addOne
  rw [if_pos ⟨hlo, hhi⟩]

theorem incrementUsageTimes_num (numberToString : Int → String) (id : JsVal) (idx : Nat)
    (N : Nat) :
    ∀ (w : World) (old : Obj) (m : Int),
      w.prompts.findIdx? (hasId id) = some idx → w.prompts[idx]? = some old →
      Obj.get old "usageCount" = JsVal.num m → -(2 ^ 53) ≤ m → m + N ≤ 2 ^ 53 →
      ∃ (wN : World) (new : Obj), incrementUsageTimes numberToString N w id = Except.ok wN ∧
        wN.prompts.findIdx? (hasId id) = some idx ∧
        wN.prompts[idx]? = some new ∧
        Obj.get new "usageCount" = JsVal.num (m + N) ∧
        (∀ k, k ≠ "usageCount" → Obj.lookup k new = Obj.lookup k old) ∧
        wN.prompts.length = w.prompts.length ∧
        (∀ j, j ≠ idx → wN.prompts[j]? = w.prompts[j]?) := by
  induction N with
  | zero =>
    intro w old m hf hold hm _ _
    exact ⟨w, old, rfl, hf, hold, by simpa using hm, fun _ _ => rfl, rfl, fun _ _ => rfl⟩
  | succ n ih =>
    intro w old m hf hold hm hlo hhi
    have hhi2 : m + 1 + (n : Int) ≤ 2 ^ 53 := by
      push_cast at hhi
      linarith
    have hc : orZeroPlusOne numberToString (Obj.get old "usageCount") =
        Except.ok (JsVal.num (m + 1)) := by
      rw [hm]
      simp only [orZeroPlusOne]
      rw [addOne_exact m hlo (by linarith [Int.ofNat_nonneg n])]
    obtain ⟨w1, h1, _, hf1, hold1, hlen1, hother1⟩ :=
      incrementUsage_step numberToString w id idx old _ hf hold hc
    obtain ⟨wN, new, hN, hfN, hnew, hcount, hfields, hlen, hother⟩ :=
      ih w1 (Obj.set old "usageCount" (JsVal.num (m + 1))) (m + 1) hf1 hold1
        (get_set_self _ _ _) (by linarith) hhi2
    refine ⟨wN, new, ?_, hfN, hnew, ?_, ?_, hlen.trans hlen1, ?_⟩
    · simp only [incrementUsageTimes, h1, hN]
    · rw [hcount]
      congr 1
      push_cast
      ring
    · intro k hk
      rw [hfields k hk, lookup_set]
      simp [hk]
    · intro j hj
      rw [hother j hj, hother1 j hj]

/-- The call after `n` calls: `n + 1` calls are `n` calls followed by one more. -/
theorem incrementUsageTimes_succ (numberToString : Int → String) (id : JsVal) (n : Nat) :
    ∀ w : World, incrementUsageTimes numberToString (n + 1) w id =
      match incrementUsageTimes numberToString n w id with
      | Except.error e => Except.error e
      | Except.ok w1 => incrementUsage numberToString w1 id := by
  induction n with
  | zero =>
    intro w
    simp only [incrementUsageTimes]
    cases incrementUsage numberToString w id <;> rfl
  | succ n ih =>
    intro w
    rw [incrementUsageTimes]
    cases h1 : incrementUsage numberToString w id with
    | error e => simp only [incrementUsageTimes, h1]
    | ok w1 =>
      simp only []
      rw [ih w1]
      conv => rhs; rw [incrementUsageTimes]
      simp only [h1]

/-- C17, amended: for an existing record (the first with the id, at position `idx`) whose
usageCount is 0, `N` calls `incrementUsage(id)`, for `N` up to `2^53`, all return and leave
its usageCount at `N`, with every other field of that record and every other record
unchanged. One call on a record whose stored usageCount is falsy (missing, `null`, `0`,
`false` or the empty string) sets it to 1. A truthy count that is not a number is not treated
as 0: `true` becomes 2, a non-empty string gets `"1"` appended, an array or an object is
converted to a string, which gets `"1"` appended; and when that conversion throws, the call
throws. -/
theorem incrementUsage_counts (numberToString : Int → String) (w : World) (id : JsVal)
    (idx : Nat) (old : Obj) (N : Nat)
    (hf : w.prompts.findIdx? (hasId id) = some idx) (hold : w.prompts[idx]? = some old) :
    (Obj.get old "usageCount" = JsVal.num 0 → N ≤ 2 ^ 53 →
      ∃ (wN : World) (new : Obj), incrementUsageTimes numberToString N w id = Except.ok wN ∧
        wN.prompts[idx]? = some new ∧
        Obj.get new "usageCount" = JsVal.num N ∧
        (∀ k, k ≠ "usageCount" → Obj.lookup k new = Obj.lookup k old) ∧
        wN.prompts.length = w.prompts.length ∧
        (∀ j, j ≠ idx → wN.prompts[j]? = w.prompts[j]?)) ∧
    ((Obj.get old "usageCount").truthy = false →
      storesCount numberToString w id idx old (JsVal.num 1)) ∧
    (Obj.get old "usageCount" = JsVal.bool true →
      storesCount numberToString w id idx old (JsVal.num 2)) ∧
    (∀ s, Obj.get old "usageCount" = JsVal.str s → s ≠ "" →
      storesCount numberToString w id idx old (JsVal.str (s ++ "1"))) ∧
    (∀ items, Obj.get old "usageCount" = JsVal.arr items → allStringify items = true →
      ∃ t, joinElements numberToString items = Except.ok t ∧
        storesCount numberToString w id idx old (JsVal.str (t ++ "1"))) ∧
    (∀ props, Obj.get old "usageCount" = JsVal.obj props →
      Obj.lookup "toString" props = none →
      storesCount numberToString w id idx old (JsVal.str ("[object Object]" ++ "1"))) ∧
    (stringifies (Obj.get old "usageCount") = false →
      incrementUsage numberToString w id = Except.error JsError.typeError) := by
  refine ⟨?_, ?_, ?_, ?_, ?_, ?_, ?_⟩
  · intro hzero hN
    obtain ⟨wN, new, hN, _, hnew, hcount, hrest⟩ :=
      incrementUsageTimes_num numberToString id idx N w old 0 hf hold hzero (by norm_num)
        (by
          have : (N : Int) ≤ 2 ^ 53 := by exact_mod_cast hN
          simpa using this)
    exact ⟨wN, new, hN, hnew, by simpa using hcount, hrest⟩
  · intro hfalsy
    apply storesCount_of_step numberToString w id idx old _ hf hold
    cases hget : Obj.get old "usageCount" with
    | num n =>
      have hn : n = 0 := by simpa [hget, JsVal.truthy] using hfalsy
      rw [hn]
      rfl
    | bool b =>
      have hb : b = false := by simpa [hget, JsVal.truthy] using hfalsy
      rw [hb]
      rfl
    | str s =>
      have hs : s = "" := by simpa [hget, JsVal.truthy] using hfalsy
      rw [hs]
      rfl
    | undefined => rfl
    | null => rfl
    | arr items => simp [hget, JsVal.truthy] at hfalsy
    | obj props => simp [hget, JsVal.truthy] at hfalsy
  · intro htrue
    apply storesCount_of_step numberToString w id idx old _ hf hold
    rw [htrue]
    rfl
  · intro s hs hne
    apply storesCount_of_step numberToString w id idx old _ hf hold
    rw [hs]
    simp [orZeroPlusOne, hne]
  · intro items hitems hall
    obtain ⟨t, ht⟩ := (joinElements_total numberToString items).1 hall
    refine ⟨t, ht, ?_⟩
    apply storesCount_of_step numberToString w id idx old _ hf hold
    rw [hitems]
    simp only [orZeroPlusOne, ht]
  · intro props hprops hnone
    apply storesCount_of_step numberToString w id idx old _ hf hold
    rw [hprops]
    simp only [orZeroPlusOne, objectToString, hnone]
  · intro hbad
    exact incrementUsage_throws numberToString w id idx old _ hf hold
      ((orZeroPlusOne_total numberToString _).2 hbad)

/-- Supporting C17: the counts `[]` and `[5, null, [true]]` become the strings `"1"` and
`"5,,true1"`, and on a count with an own `toString` property the call throws. -/
theorem incrementUsage_odd_counts :
    incrementUsage decimal worldOddCounts (JsVal.str "a") =
      Except.ok (incremented worldOddCounts (JsVal.str "a") 0 (JsVal.str "1")) ∧
    incrementUsage decimal worldOddCounts (JsVal.str "b") =
      Except.ok (incremented worldOddCounts (JsVal.str "b") 1 (JsVal.str "5,,true1")) ∧
    incrementUsage decimal worldOddCounts (JsVal.str "c") =
      Except.error JsError.typeError :=
  ⟨rfl, rfl, rfl⟩

/-- C17 as stated fails on the code. The stored usageCount `"5"` is not numeric, and
`incrementUsage` does not treat it as 0: it stores `"51"`, not 1. And from the usageCount 0,
`2^53 + 1` calls leave the count at `2^53`, not at `2^53 + 1`: the last addition rounds back
to `2^53`. -/
theorem incrementUsage_appends_to_string :
    isNumberVal (Obj.get recStringCount "usageCount") = false ∧
    incrementUsage decimal worldStringCount (JsVal.str "a") =
      Except.ok (incremented worldStringCount (JsVal.str "a") 0 (JsVal.str "51")) ∧
    (incremented worldStringCount (JsVal.str "a") 0 (JsVal.str "51")).prompts.map
      (fun p => Obj.get p "usageCount") = [JsVal.str "51"] ∧
    Obj.get recA1 "usageCount" = JsVal.num 0 ∧
    (∃ (wN : World) (new : Obj),
      incrementUsageTimes decimal (2 ^ 53 + 1) worldA1 (JsVal.str "a") = Except.ok wN ∧
      wN.prompts[0]? = some new ∧
      Obj.get new "usageCount" = JsVal.num (2 ^ 53)) := by
  refine ⟨rfl, rfl, rfl, rfl, ?_⟩
  obtain ⟨wN, new, hN, hfN, hnew, hcount, _⟩ :=
    incrementUsageTimes_num decimal (JsVal.str "a") 0 (2 ^ 53) worldA1 recA1 0 rfl rfl rfl
      (by norm_num) (by norm_num)
  have hc : orZeroPlusOne decimal (Obj.get new "usageCount") =
      Except.ok (JsVal.num (2 ^ 53)) := by
    rw [hcount]
    simp only [orZeroPlusOne]
    norm_num [addOne]
  obtain ⟨w1, h1, _, _, hold1, _, _⟩ :=
    incrementUsage_step decimal wN (JsVal.str "a") 0 new _ hfN hnew hc
  refine ⟨w1, _, ?_, hold1, get_set_self _ _ _⟩
  rw [incrementUsageTimes_succ, hN]
  exact h1

/-- The amended C17 at a concrete input: three calls on the record `"a"` of `worldA1`, whose
usageCount is 0. -/
theorem incrementUsage_counts_witness :
    ∃ (wN : World) (new : Obj),
      incrementUsageTimes decimal 3 worldA1 (JsVal.str "a") = Except.ok wN ∧
      wN.prompts[0]? = some new ∧
      Obj.get new "usageCount" = JsVal.num (3 : Nat) ∧
      (∀ k, k ≠ "usageCount" → Obj.lookup k new = Obj.lookup k recA1) ∧
      wN.prompts.length = worldA1.prompts.length ∧
      (∀ j, j ≠ 0 → wN.prompts[j]? = worldA1.prompts[j]?) :=
  (incrementUsage_counts decimal worldA1 (JsVal.str "a") 0 recA1 3 rfl rfl).1 rfl (by norm_num)

/-! ## C18: failure and error report go together -/

theorem append_singleton_ne_self (l : List ErrorKey) (k : ErrorKey) : l ++ [k] ≠ l := by
  intro h
  have hlen := congrArg List.length h
  simp at hlen

/-- C18: `addPrompt` and `editPrompt` return `false` if and only if exactly one message was
given to `showError` during the call, and return `true` if and only if none was. -/
theorem failure_iff_error_reported (w : World) (now : Int) (prompt id data : JsVal) :
    ((addPrompt w prompt).1 = false ↔
      ∃ k, (addPrompt w prompt).2.errors = w.errors ++ [k]) ∧
    ((addPrompt w prompt).1 = true ↔ (addPrompt w prompt).2.errors = w.errors) ∧
    ((editPrompt w now id data).1 = false ↔
      ∃ k, (editPrompt w now id data).2.errors = w.errors ++ [k]) ∧
    ((editPrompt w now id data).1 = true ↔ (editPrompt w now id data).2.errors = w.errors) := by
  have hadd : (addPrompt w prompt = (true, created w prompt.ownProps)) ∨
      ∃ k, addPrompt w prompt = (false, w.showError k) := by
    rw [addPrompt_eq]
    split_ifs
    · exact Or.inr ⟨_, rfl⟩
    · exact Or.inr ⟨_, rfl⟩
    · exact Or.inr ⟨_, rfl⟩
    · exact Or.inl rfl
  have hedit : (∃ idx, editPrompt w now id data = (true, updated w now id data idx)) ∨
      ∃ k, editPrompt w now id data = (false, w.showError k) := by
    rw [editPrompt_eq]
    cases w.prompts.findIdx? (hasId id) with
    | none => exact Or.inr ⟨_, rfl⟩
    | some idx =>
      dsimp only
      split_ifs
      · exact Or.inr ⟨_, rfl⟩
      · exact Or.inr ⟨_, rfl⟩
      · exact Or.inl ⟨idx, rfl⟩
  refine ⟨?_, ?_, ?_, ?_⟩
  · rcases hadd with h | ⟨k, h⟩
    · rw [h]
      simp only [created, Bool.true_eq_false, false_iff, not_exists]
      intro k hk
      exact append_singleton_ne_self _ k hk.symm
    · rw [h]
      simp only [World.showError, true_iff]
      exact ⟨k, rfl⟩
  · rcases hadd with h | ⟨k, h⟩
    · rw [h]
      simp [created]
    · rw [h]
      simp only [World.showError, Bool.false_eq_true, false_iff]
      exact append_singleton_ne_self _ k
  · rcases hedit with ⟨idx, h⟩ | ⟨k, h⟩
    · rw [h]
      simp only [updated, Bool.true_eq_false, false_iff, not_exists]
      intro k hk
      exact append_singleton_ne_self _ k hk.symm
    · rw [h]
      simp only [World.showError, true_iff]
      exact ⟨k, rfl⟩
  · rcases hedit with ⟨idx, h⟩ | ⟨k, h⟩
    · rw [h]
      simp [updated]
    · rw [h]
      simp only [World.showError, Bool.false_eq_true, false_iff]
      exact append_singleton_ne_self _ k

/-- C18 at concrete inputs: the failed create of `emptyFolderPrompt` reports one message,
the successful update with `patchY` reports none. -/
theorem failure_iff_error_reported_witness :
    (∃ k, (addPrompt worldA emptyFolderPrompt).2.errors = worldA.errors ++ [k]) ∧
    (editPrompt worldA 5 (JsVal.str "a") patchY).2.errors = worldA.errors :=
  ⟨(failure_iff_error_reported worldA 5 emptyFolderPrompt (JsVal.str "a") patchY).1.mp rfl,
   (failure_iff_error_reported worldA 5 emptyFolderPrompt (JsVal.str "a") patchY).2.2.2.mp rfl⟩

/-! ## C19: calls of savePrompts -/

/-- C19, amended: a successful create or update, and a toggleFavorite or incrementUsage that
finds the record, call `savePrompts` exactly once, with the entire resulting collection; a
failed create or update, and a toggleFavorite or incrementUsage of an id that no record has,
do not call it; `deletePrompt` calls it exactly once on every call, with the resulting
collection, also when no record has the id. The incrementUsage call that finds the record
returns, except when the string conversion of the stored usageCount throws: then the call
throws before it has written or saved anything. -/
theorem savePrompts_calls (numberToString : Int → String) (w : World) (now : Int)
    (prompt id data : JsVal) :
    ((addPrompt w prompt).1 = true →
      (addPrompt w prompt).2.saved = w.saved ++ [(addPrompt w prompt).2.prompts]) ∧
    ((addPrompt w prompt).1 = false → (addPrompt w prompt).2.saved = w.saved) ∧
    ((editPrompt w now id data).1 = true →
      (editPrompt w now id data).2.saved = w.saved ++ [(editPrompt w now id data).2.prompts]) ∧
    ((editPrompt w now id data).1 = false → (editPrompt w now id data).2.saved = w.saved) ∧
    (deletePrompt w id).saved = w.saved ++ [(deletePrompt w id).prompts] ∧
    (idExists w id →
      (toggleFavorite w id).saved = w.saved ++ [(toggleFavorite w id).prompts]) ∧
    (¬ idExists w id → (toggleFavorite w id).saved = w.saved) ∧
    (idExists w id →
      ∃ (idx : Nat) (old : Obj), w.prompts.findIdx? (hasId id) = some idx ∧
        w.prompts[idx]? = some old ∧
        (stringifies (Obj.get old "usageCount") = true →
          ∃ w1 : World, incrementUsage numberToString w id = Except.ok w1 ∧
            w1.saved = w.saved ++ [w1.prompts]) ∧
        (stringifies (Obj.get old "usageCount") = false →
          incrementUsage numberToString w id = Except.error JsError.typeError ∧
          afterIncrementUsage numberToString w id = w)) ∧
    (¬ idExists w id → incrementUsage numberToString w id = Except.ok w) := by
  refine ⟨?_, ?_, ?_, ?_, ?_, ?_, ?_, ?_, ?_⟩
  · rw [addPrompt_eq]
    split_ifs <;> simp [created]
  · rw [addPrompt_eq]
    split_ifs <;> simp [World.showError]
  · intro hok
    obtain ⟨idx, _, _, _, _, heq⟩ := editPrompt_success_eq w now id data hok
    rw [heq]
    rfl
  · rw [editPrompt_eq]
    cases w.prompts.findIdx? (hasId id) with
    | none => simp [World.showError]
    | some idx =>
      dsimp only
      split_ifs <;> simp [World.showError]
  · unfold deletePrompt
    cases w.prompts.find? (hasId id) <;> rfl
  · intro hyes
    cases hf : w.prompts.findIdx? (hasId id) with
    | none => exact absurd hyes ((findIdx?_hasId_eq_none_iff w id).mp hf)
    | some idx =>
      rw [toggleFavorite_found w id idx hf]
      rfl
  · intro hno
    rw [toggleFavorite_absent w id ((findIdx?_hasId_eq_none_iff w id).mpr hno)]
  · intro hyes
    cases hf : w.prompts.findIdx? (hasId id) with
    | none => exact absurd hyes ((findIdx?_hasId_eq_none_iff w id).mp hf)
    | some idx =>
      obtain ⟨hlt, _, _⟩ := findIdx?_getD w.prompts id idx hf
      have hold : w.prompts[idx]? = some (w.prompts.get ⟨idx, hlt⟩) :=
        List.getElem?_eq_getElem hlt
      refine ⟨idx, w.prompts.get ⟨idx, hlt⟩, rfl, hold, ?_, ?_⟩
      · intro hgood
        obtain ⟨c, hc⟩ := (orZeroPlusOne_total numberToString _).1 hgood
        obtain ⟨w1, h1, hw1, _⟩ :=
          incrementUsage_step numberToString w id idx _ c hf hold hc
        refine ⟨w1, h1, ?_⟩
        rw [hw1]
        rfl
      · intro hbad
        have hthrow := incrementUsage_throws numberToString w id idx _ _ hf hold
          ((orZeroPlusOne_total numberToString _).2 hbad)
        refine ⟨hthrow, ?_⟩
        simp only [afterIncrementUsage, hthrow]
  · intro hno
    exact incrementUsage_absent numberToString w id ((findIdx?_hasId_eq_none_iff w id).mpr hno)

/-- C19 as stated fails on the code: deleting the id `"nonexistent"`, which no record of
`worldA` has, leaves the collection as it was and still calls `savePrompts` once. -/
theorem deletePrompt_absent_still_saves :
    worldA.prompts.any (hasId (JsVal.str "nonexistent")) = false ∧
    (deletePrompt worldA (JsVal.str "nonexistent")).prompts = worldA.prompts ∧
    worldA.saved = [] ∧
    (deletePrompt worldA (JsVal.str "nonexistent")).saved = [worldA.prompts] :=
  ⟨rfl, rfl, rfl, rfl⟩

/-- The amended C19 at concrete inputs: a successful create saves the new collection, a
toggle of an unknown id saves nothing, and an incrementUsage of an unknown id returns the
store as it was. -/
theorem savePrompts_calls_witness :
    (addPrompt worldA goodPrompt).2.saved =
      worldA.saved ++ [(addPrompt worldA goodPrompt).2.prompts] ∧
    (toggleFavorite worldA (JsVal.str "zz")).saved = worldA.saved ∧
    incrementUsage decimal worldA (JsVal.str "zz") = Except.ok worldA :=
  ⟨(savePrompts_calls decimal worldA 5 goodPrompt (JsVal.str "zz") patchY).1 rfl,
   (savePrompts_calls decimal worldA 5 goodPrompt (JsVal.str "zz") patchY).2.2.2.2.2.2.1
     (fun h => Bool.false_ne_true ((any_hasId_iff worldA (JsVal.str "zz")).mpr h)),
   (savePrompts_calls decimal worldA 5 goodPrompt (JsVal.str "zz") patchY).2.2.2.2.2.2.2.2
     (fun h => Bool.false_ne_true ((any_hasId_iff worldA (JsVal.str "zz")).mpr h))⟩

end PromptsModel
